import Mathlib

/-!
The document list pipeline of docucloud.

A shallow embedding of the document list of the docucloud client
(`src/components/documents/DocumentList.js`, `DocumentList.tsx`), of the
delete flows of `DocumentCard.js` and `DocumentViewer.js`, of `getDocuments`,
`deleteDocument` (`src/firebase/firestore.js`) and `deleteFile`
(`src/firebase/storage.js`) over a model of the backend, of the upload signal
of `src/App.js`, of the storage statistics (`src/services/storageService.js`),
of the file validation and file names of `src/utils/index.js`, and of the
JavaScript built-ins they rely on, followed by theorems about the embedding.

Conventions of the embedding:

* a JavaScript string is a Lean `String` (a well-formed sequence of code
  points); `String.prototype.includes` and the relational operators work on
  UTF-16 code units, which for well-formed strings is the same containment
  and is modelled through `codeUnits` for the ordering;
* `String.prototype.toLowerCase` is a platform function: it is a parameter
  `toLowerCase : String → String` of every definition that calls it, and the
  scenarios instantiate it with `asciiLower`, which agrees with it on ASCII
  text;
* a number that holds a file size is a `Nat`, an epoch instant is an `Int`
  (milliseconds), an optional property is an `Option`;
* React state is an explicit record and every handler is a function from
  state to state.
-/

namespace Docucloud

/-! ## JavaScript built-ins -/

/-- ToBoolean on a string: only the empty string is falsy. -/
def truthy (s : String) : Bool :=
  !s.toList.isEmpty

/-- ToBoolean on an optional string property: `undefined` and the empty string are falsy. -/
def truthyOpt : Option String → Bool
  | none => false
  | some s => truthy s

/-- Substring search on character lists: `q` occurs in `s` at some offset. -/
def includesList (s q : List Char) : Bool :=
  match s with
  | [] => q.isEmpty
  | c :: rest => q.isPrefixOf (c :: rest) || includesList rest q

/-- The method `String.prototype.includes(searchString)` with the default position 0. -/
def includes (s q : String) : Bool :=
  includesList s.toList q.toList

/-- UTF-16 encoding of one code point: one unit in the basic plane, a surrogate pair above it. -/
def toCodeUnits (c : Char) : List Nat :=
  if c.toNat < 0x10000 then [c.toNat]
  else [0xD800 + (c.toNat - 0x10000) / 0x400, 0xDC00 + (c.toNat - 0x10000) % 0x400]

/-- The UTF-16 code units of a string, the sequence JavaScript compares. -/
def codeUnits (s : String) : List Nat :=
  s.toList.flatMap toCodeUnits

/-- Lexicographic "less than" on code unit sequences; a proper initial segment is smaller. -/
def lexLt : List Nat → List Nat → Bool
  | [], [] => false
  | [], _ :: _ => true
  | _ :: _, [] => false
  | x :: xs, y :: ys => if x < y then true else if y < x then false else lexLt xs ys

/-- The operator `<` on two strings. -/
def stringLt (a b : String) : Bool :=
  lexLt (codeUnits a) (codeUnits b)

/-- The method `Array.prototype.sort(compareFn)`: a stable sort (ECMAScript 2019 on) that puts
`a` before `b` when `compareFn a b` is negative and keeps the input order of a pair that
compares 0.  For a consistent comparator every stable sort yields the same array; the model is
a stable insertion sort. -/
def arraySort {α : Type} (compareFn : α → α → Int) (xs : List α) : List α :=
  xs.insertionSort (fun a b => compareFn a b ≤ 0)

/-- ASCII lower-casing, the instance of `toLowerCase` used on the ASCII scenarios. -/
def asciiLower (s : String) : String :=
  String.mk (s.toList.map Char.toLower)

/-! ## Data model (`src/types/document.types.ts`) -/

/-- The interface `DocumentType`.  The dates are the instants `getTime()` returns. -/
structure Document where
  id : String
  name : String
  type : String
  size : Nat
  url : String
  description : Option String
  createdAt : Option Int
  updatedAt : Option Int
  ownerId : String
deriving DecidableEq, Repr

/-- Values of the `sortBy` state: the four entries of the sort menu, and `updatedAt`, which the
comparator also handles. -/
inductive SortKey where
  | name
  | createdAt
  | size
  | type
  | updatedAt
deriving DecidableEq, Repr

/-! ## `DocumentList.js`: the filter and sort effect -/

/-- The callback of `results.filter` (lines 126-129); `query` is the lower-cased search text. -/
def filterCallback (toLowerCase : String → String) (query : String) (doc : Document) : Bool :=
  includes (toLowerCase doc.name) query ||
    (match doc.description with
     | none => false
     | some description => truthy description && includes (toLowerCase description) query)

/-- Normalisation of a date value in the comparator (lines 139-140): a missing value is 0. -/
def dateValue : Option Int → Int
  | some t => t
  | none => 0

/-- The three-way result of the comparator (lines 144-146): descending order. -/
def descending {β : Type} (lt : β → β → Bool) (valueA valueB : β) : Int :=
  if lt valueA valueB then 1
  else if lt valueB valueA then -1
  else 0

/-- The comparator passed to `results.sort` (lines 133-147). -/
def compareDocs (sortBy : SortKey) (a b : Document) : Int :=
  match sortBy with
  | .name => descending stringLt a.name b.name
  | .type => descending stringLt a.type b.type
  | .size => descending (fun x y => decide (x < y)) a.size b.size
  | .createdAt =>
      descending (fun x y => decide (x < y)) (dateValue a.createdAt) (dateValue b.createdAt)
  | .updatedAt =>
      descending (fun x y => decide (x < y)) (dateValue a.updatedAt) (dateValue b.updatedAt)

/-- The filter and sort effect (lines 120-150): the value it stores in `filteredDocuments`,
computed from `documents`, `searchQuery` and `sortBy`. -/
def project (toLowerCase : String → String) (documents : List Document) (searchQuery : String)
    (sortBy : SortKey) : List Document :=
  let results := documents
  let results :=
    if truthy searchQuery then
      results.filter (filterCallback toLowerCase (toLowerCase searchQuery))
    else results
  arraySort (compareDocs sortBy) results

/-! ## The specification's vocabulary -/

/-- The filter predicate of the specification: the search term is empty, or the lower-cased
name contains the lower-cased term, or a description is present and its lower-cased text
contains the lower-cased term. -/
def Keeps (toLowerCase : String → String) (s : String) (r : Document) : Prop :=
  s = "" ∨ (toLowerCase s).toList <:+: (toLowerCase r.name).toList ∨
    ∃ d, r.description = some d ∧ (toLowerCase s).toList <:+: (toLowerCase d).toList

/-- The order of the specification on sort keys, `key a ≥ key b`: code unit order on the raw
string for `name` and `type`, numeric order on `size`, order of the instants for the dates. -/
def KeyGe (k : SortKey) (a b : Document) : Prop :=
  match k with
  | .name => codeUnits b.name ≤ codeUnits a.name
  | .type => codeUnits b.type ≤ codeUnits a.type
  | .size => b.size ≤ a.size
  | .createdAt => dateValue b.createdAt ≤ dateValue a.createdAt
  | .updatedAt => dateValue b.updatedAt ≤ dateValue a.updatedAt

/-- The two-record list of the specification's scenarios: record 1. -/
def doc1 : Document :=
  { id := "1", name := "Report.pdf", type := "application/pdf", size := 2048, url := "",
    description := none, createdAt := some 100, updatedAt := none, ownerId := "u" }

/-- The two-record list of the specification's scenarios: record 2. -/
def doc2 : Document :=
  { id := "2", name := "Photo.png", type := "image/png", size := 4096, url := "",
    description := none, createdAt := some 200, updatedAt := none, ownerId := "u" }

/-- The authoritative list of the specification's scenarios. -/
def scenarioList : List Document := [doc1, doc2]

/-- The Boolean test the effect applies to a record: everything passes when the search text is
falsy, otherwise the filter callback decides on the lower-cased text. -/
def kept (toLowerCase : String → String) (searchQuery : String) (doc : Document) : Bool :=
  !truthy searchQuery || filterCallback toLowerCase (toLowerCase searchQuery) doc

instance Keeps.decidable (toLowerCase : String → String) (s : String) (r : Document) :
    Decidable (Keeps toLowerCase s r) :=
  match h : r.description with
  | none =>
    decidable_of_iff (s = "" ∨ (toLowerCase s).toList <:+: (toLowerCase r.name).toList)
      (by simp [Keeps, h])
  | some d =>
    decidable_of_iff (s = "" ∨ (toLowerCase s).toList <:+: (toLowerCase r.name).toList ∨
      (toLowerCase s).toList <:+: (toLowerCase d).toList) (by simp [Keeps, h])

/-! ## `DocumentList.js`: component state, delete handler and load -/

/-- The `useState` cells of the component (lines 74-81). -/
structure ListState where
  documents : List Document
  filteredDocuments : List Document
  loading : Bool
  error : String
  searchQuery : String
  sortBy : SortKey
  indexRequired : Bool
  indexUrl : String
deriving DecidableEq, Repr

/-- The initial values given to `useState`. -/
def ListState.initial : ListState :=
  { documents := [], filteredDocuments := [], loading := true, error := "", searchQuery := "",
    sortBy := SortKey.createdAt, indexRequired := false, indexUrl := "" }

/-- The handler `handleDocumentDelete` (lines 161-163): a functional update of `documents`. -/
def handleDocumentDelete (documentId : String) (st : ListState) : ListState :=
  { st with documents := st.documents.filter (fun doc => doc.id != documentId) }

/-- A thrown value as the catch block reads it: its `message` property, `none` when the
property is `undefined`. -/
structure JsError where
  message : Option String
deriving DecidableEq, Repr

/-- String conversion of `err.message` inside a template literal. -/
def templateValue : Option String → String
  | none => "undefined"
  | some s => s

/-- The class `\s` of a regular expression: white space and line terminators. -/
def isWhiteSpace (c : Char) : Bool :=
  let n := c.toNat
  n = 0x09 || n = 0x0A || n = 0x0B || n = 0x0C || n = 0x0D || n = 0x20 || n = 0xA0 ||
    n = 0x1680 || (0x2000 ≤ n && n ≤ 0x200A) || n = 0x2028 || n = 0x2029 || n = 0x202F ||
    n = 0x205F || n = 0x3000 || n = 0xFEFF

/-- The literal part of the pattern on line 99. -/
def consoleOrigin : List Char :=
  "https://console.firebase.google.com".toList

/-- An attempt of the pattern `(https:\/\/console\.firebase\.google\.com\S+)` at the start of
`cs`: the literal, then the longest non-empty run of characters outside `\s`. -/
def matchHere (cs : List Char) : Option (List Char) :=
  if consoleOrigin.isPrefixOf cs then
    let run := (cs.drop consoleOrigin.length).takeWhile (fun c => !isWhiteSpace c)
    if run.isEmpty then none else some (consoleOrigin ++ run)
  else none

/-- The leftmost match of the pattern in `cs`. -/
def matchFrom : List Char → Option (List Char)
  | [] => none
  | c :: cs =>
    match matchHere (c :: cs) with
    | some m => some m
    | none => matchFrom cs

/-- The value of `urlMatch[1]` after `err.message.match(...)` on line 99, `none` when the
pattern does not match. -/
def urlMatch (message : String) : Option String :=
  (matchFrom message.toList).map String.mk

/-- The message stored on line 103. -/
def indexErrorMessage : String :=
  "This query requires a Firestore index. Click \"Create Index\" to fix this issue."

/-- The generic branch of the catch block (lines 105 and 108). -/
def failedToLoad (err : JsError) (st : ListState) : ListState :=
  { st with error := "Failed to load documents: " ++ templateValue err.message }

/-- The catch block of `loadDocuments` (lines 94-109). -/
def loadDocumentsCatch (err : JsError) (st : ListState) : ListState :=
  match err.message with
  | none => failedToLoad err st
  | some message =>
    if truthy message && includes message "requires an index" then
      match urlMatch message with
      | some url =>
        if truthy url then
          let st := { st with indexRequired := true }
          let st := { st with indexUrl := url }
          { st with error := indexErrorMessage }
        else failedToLoad err st
      | none => failedToLoad err st
    else failedToLoad err st

/-- The function `loadDocuments` (lines 84-113), given how the awaited `getDocuments()` call
settles: `Except.ok docs` when it resolves, `Except.error err` when it rejects. -/
def loadDocuments (outcome : Except JsError (List Document)) (st : ListState) : ListState :=
  let st := { st with loading := true }
  let st := { st with error := "" }
  let st := { st with indexRequired := false }
  let st :=
    match outcome with
    | Except.ok docs =>
      let st := { st with documents := docs }
      { st with filteredDocuments := docs }
    | Except.error err => loadDocumentsCatch err st
  { st with loading := false }

/-! ## `DocumentList.tsx` -/

/-- The `useState` cells of the TypeScript component (lines 55-58). -/
structure TsListState where
  documents : List Document
  loading : Bool
  error : String
  refreshCount : Nat
deriving DecidableEq, Repr

/-- The function `fetchDocuments` (lines 61-74), given how `getDocuments()` settles. -/
def fetchDocuments (outcome : Except JsError (List Document)) (st : TsListState) :
    TsListState :=
  let st := { st with loading := true }
  let st := { st with error := "" }
  let st :=
    match outcome with
    | Except.ok docs => { st with documents := docs }
    | Except.error err =>
      { st with error :=
          if truthyOpt err.message then templateValue err.message
          else "Failed to fetch documents" }
  { st with loading := false }

/-- The handler `handleDocumentDeleted` (lines 83-88).  The second component tells whether the
optional `onDocumentDeleted` callback was invoked. -/
def handleDocumentDeleted (deletedDocId : String) (hasCallback : Bool) (st : TsListState) :
    TsListState × Bool :=
  ({ st with documents := st.documents.filter (fun doc => doc.id != deletedDocId) },
    hasCallback)

/-! ## The specification's vocabulary for the handlers -/

/-- The specification's words for a single removal: `out` is `L` with one record of id `d`
taken out, every other record staying where it was. -/
def RemovedExactly (d : String) (L out : List Document) : Prop :=
  ∃ pre r post, L = pre ++ r :: post ∧ r.id = d ∧ out = pre ++ post ∧
    out.length + 1 = L.length ∧ (∀ x ∈ out, x.id ≠ d) ∧
    (∀ x ∈ L, x.id ≠ d → x ∈ out)

/-! ## `DocumentList.js`: the effect as a state update, and the rendered list container -/

/-- The filter and sort effect as a state update: it stores the projection of the current
`documents`, `searchQuery` and `sortBy` in `filteredDocuments` (line 149). -/
def filterSortEffect (toLowerCase : String → String) (st : ListState) : ListState :=
  { st with filteredDocuments := project toLowerCase st.documents st.searchQuery st.sortBy }

/-- What the list container shows (lines 235-324). -/
inductive ListView where
  | spinner
  | errorPanel (message : String) (createIndexHref : Option String)
  | noMatches
  | noDocumentsYet
  | cards (docs : List Document)
deriving DecidableEq, Repr

/-- The conditional rendering of the list container (lines 236-323): the spinner while loading,
the error panel when `error` is truthy (with the "Create Index" button when `indexRequired`),
one of the two empty states when `filteredDocuments` is empty, the cards otherwise. -/
def renderListContainer (st : ListState) : ListView :=
  if st.loading then ListView.spinner
  else if truthy st.error then
    ListView.errorPanel st.error (if st.indexRequired then some st.indexUrl else none)
  else if st.filteredDocuments.length = 0 then
    if truthy st.searchQuery then ListView.noMatches else ListView.noDocumentsYet
  else ListView.cards st.filteredDocuments

/-- A settled state with no document at all and the search text "x". -/
def emptyListSearching : ListState :=
  filterSortEffect asciiLower { ListState.initial with loading := false, searchQuery := "x" }

/-- A failure detail that carries the remediation URL of the specification's scenario. -/
def exampleIndexFailure : JsError :=
  { message := some
      "The query requires an index. You can create it here: https://console.example/create-index" }

/-- A failure detail as the Firestore backend words it, with a console URL. -/
def firebaseIndexFailure : JsError :=
  { message := some ("The query requires an index. You can create it here: " ++
      "https://console.firebase.google.com/v1/r/project/p/firestore/indexes?create_composite=Cg") }

/-- A record whose `createdAt` is missing. -/
def docUndated : Document :=
  { id := "3", name := "Notes.txt", type := "text/plain", size := 10, url := "",
    description := none, createdAt := none, updatedAt := none, ownerId := "u" }

/-! ## Arrays as mutable objects

The effect works on JavaScript arrays, which are objects with identity: `[...documents]` and
`filter` allocate a new array, `sort` reorders the array it is called on.  To state what the
effect does to the array held in `documents`, arrays live in a heap and are named by
reference. -/

/-- The arrays alive at some moment; a reference is a position in the list. -/
structure Heap where
  arrays : List (List Document)
deriving DecidableEq, Repr

/-- The content of the array behind a reference. -/
def Heap.read (h : Heap) (ref : Nat) : List Document :=
  h.arrays.getD ref []

/-- Allocation of a new array with the given content; the new reference is returned. -/
def Heap.alloc (h : Heap) (content : List Document) : Heap × Nat :=
  ({ arrays := h.arrays ++ [content] }, h.arrays.length)

/-- In-place replacement of the content of the array behind a reference. -/
def Heap.write (h : Heap) (ref : Nat) (content : List Document) : Heap :=
  { arrays := h.arrays.set ref content }

/-- The filter and sort effect (lines 120-150) on arrays as objects: `documents` is the
reference held by the state; the result is the heap after the effect and the reference passed
to `setFilteredDocuments`. -/
def filterSortEffectOnHeap (toLowerCase : String → String) (h : Heap) (documents : Nat)
    (searchQuery : String) (sortBy : SortKey) : Heap × Nat :=
  let copy := h.alloc (h.read documents)
  let filtered :=
    if truthy searchQuery then
      copy.1.alloc
        ((copy.1.read copy.2).filter (filterCallback toLowerCase (toLowerCase searchQuery)))
    else copy
  (filtered.1.write filtered.2 (arraySort (compareDocs sortBy) (filtered.1.read filtered.2)),
    filtered.2)

/-! ## `DocumentCard.js` and `DocumentViewer.js`: the delete flows -/

/-- The `useState` cells of a card (lines 72-74); `menuOpen` stands for a non-null
`anchorEl`. -/
structure CardState where
  menuOpen : Bool
  deleteDialogOpen : Bool
  deleting : Bool
deriving DecidableEq, Repr

/-- The handler `handleDeleteConfirm` of a card (lines 95-108), given how the awaited
`deleteDocument(document.id)` settles.  The second component lists the ids passed to the
`onDelete` prop, in order; `hasOnDelete` tells whether the prop is set. -/
def handleDeleteConfirm (outcome : Except JsError Bool) (document : Document)
    (hasOnDelete : Bool) (cs : CardState) : CardState × List String :=
  let cs := { cs with deleting := true }
  let run : CardState × List String :=
    match outcome with
    | Except.ok _ =>
      ({ cs with deleteDialogOpen := false }, if hasOnDelete then [document.id] else [])
    | Except.error _ => (cs, [])
  ({ run.1 with deleting := false }, run.2)

/-- A card inside the list (line 319 of `DocumentList.js`): `onDelete` is
`handleDocumentDelete`, so every id the card passes to `onDelete` is removed from the list. -/
def confirmDeleteInList (outcome : Except JsError Bool) (document : Document) (cs : CardState)
    (st : ListState) : CardState × ListState :=
  let run := handleDeleteConfirm outcome document true cs
  (run.1, run.2.foldl (fun s documentId => handleDocumentDelete documentId s) st)

/-- A remote call issued by the viewer. -/
inductive RemoteCall where
  | deleteFile (fileUrl : String)
  | deleteDocument (id : String)
deriving DecidableEq, Repr

/-- What a run of the viewer's `handleDeleteClick` did: the final `loading` cell, the remote
calls issued, the ids passed to `onDelete`, whether `onClose` was called and whether the
failure alert was shown. -/
structure ViewerRun where
  loading : Bool
  remoteCalls : List RemoteCall
  onDeleteCalls : List String
  closed : Bool
  alerted : Bool
deriving DecidableEq, Repr

/-- The handler `handleDeleteClick` of the viewer (lines 124-144), given the answer to
`window.confirm` and how the awaited `deleteFile(document.url)` and
`deleteDocument(document.id)` settle; the second call is issued only when the first
resolved. -/
def handleDeleteClick (confirmed : Bool) (deleteFileOutcome : Except JsError Bool)
    (deleteDocumentOutcome : Except JsError Bool) (document : Document) (hasOnDelete : Bool)
    (loading : Bool) : ViewerRun :=
  if confirmed then
    match deleteFileOutcome with
    | Except.error _ =>
      { loading := false, remoteCalls := [RemoteCall.deleteFile document.url],
        onDeleteCalls := [], closed := false, alerted := true }
    | Except.ok _ =>
      match deleteDocumentOutcome with
      | Except.error _ =>
        { loading := false,
          remoteCalls :=
            [RemoteCall.deleteFile document.url, RemoteCall.deleteDocument document.id],
          onDeleteCalls := [], closed := false, alerted := true }
      | Except.ok _ =>
        { loading := false,
          remoteCalls :=
            [RemoteCall.deleteFile document.url, RemoteCall.deleteDocument document.id],
          onDeleteCalls := if hasOnDelete then [document.id] else [],
          closed := true, alerted := false }
  else
    { loading := loading, remoteCalls := [], onDeleteCalls := [], closed := false,
      alerted := false }

/-! ## `firebase/firestore.js`: `getDocuments` over a model of the store

The Firestore collection `documents` is a list of stored records.  A query built with
`where('ownerId', '==', uid)` and `orderBy(field, direction)` is answered by the records whose
`ownerId` equals `uid`, ordered on the field; the store can also reject a query (network
failure, missing index). -/

/-- A record of the collection `documents`: the id of the document and the fields written by
`addDocument` and `uploadFile`.  The two timestamps are always written, and `getDocuments`
calls `toDate()` on both. -/
structure StoredDoc where
  id : String
  name : String
  type : String
  size : Nat
  url : String
  description : Option String
  createdAt : Int
  updatedAt : Int
  ownerId : String
deriving DecidableEq, Repr

/-- The fields `DocumentListFilterType.sortBy` ranges over. -/
inductive OrderField where
  | name
  | createdAt
  | size
deriving DecidableEq, Repr

/-- The two directions of `orderBy`. -/
inductive Direction where
  | asc
  | desc
deriving DecidableEq, Repr

/-- The argument `filters` of `getDocuments` (`DocumentListFilterType`); every property is
optional. -/
structure Filters where
  searchTerm : Option String
  fileType : Option String
  sortBy : Option OrderField
  sortDirection : Option Direction
deriving DecidableEq, Repr

/-- The call `getDocuments()` of the list components: no filter is given. -/
def Filters.none : Filters :=
  { searchTerm := Option.none, fileType := Option.none, sortBy := Option.none,
    sortDirection := Option.none }

/-- A query as `getDocuments` builds it: the owner constraint and one ordering. -/
structure StoreQuery where
  ownerId : String
  orderField : OrderField
  direction : Direction
deriving DecidableEq, Repr

/-- Ascending order of two stored records on a field. -/
def fieldLe (field : OrderField) (a b : StoredDoc) : Bool :=
  match field with
  | OrderField.name => !decide (b.name < a.name)
  | OrderField.createdAt => decide (a.createdAt ≤ b.createdAt)
  | OrderField.size => decide (a.size ≤ b.size)

/-- The order a query asks for: the ascending order on its field, or the reverse. -/
def orderLe (q : StoreQuery) (a b : StoredDoc) : Bool :=
  match q.direction with
  | Direction.asc => fieldLe q.orderField a b
  | Direction.desc => fieldLe q.orderField b a

/-- The answer of the store to a query that it accepts: the records of the owner, ordered on
the field in the direction asked. -/
def answerQuery (store : List StoredDoc) (q : StoreQuery) : List StoredDoc :=
  (store.filter (fun d => d.ownerId == q.ownerId)).insertionSort
    (fun a b => orderLe q a b = true)

/-- The object pushed for a stored record (lines 61-66): the id, the data, and the two
timestamps turned into dates. -/
def toDocument (d : StoredDoc) : Document :=
  { id := d.id, name := d.name, type := d.type, size := d.size, url := d.url,
    description := d.description, createdAt := some d.createdAt,
    updatedAt := some d.updatedAt, ownerId := d.ownerId }

/-- A run of `getDocuments`: the queries it issued to the store and how its promise
settles. -/
structure GetDocumentsRun where
  queries : List StoreQuery
  result : Except JsError (List Document)

/-- The query `getDocuments` builds (lines 46-55): the owner constraint, and the ordering asked
by the filters or, by default, `createdAt` descending. -/
def buildQuery (uid : String) (filters : Filters) : StoreQuery :=
  match filters.sortBy with
  | some field =>
    { ownerId := uid, orderField := field,
      direction :=
        if filters.sortDirection = some Direction.desc then Direction.desc else Direction.asc }
  | none => { ownerId := uid, orderField := OrderField.createdAt, direction := Direction.desc }

/-- The filter on the file type (lines 79-83). -/
def applyFileType (filters : Filters) (documents : List Document) : List Document :=
  match filters.fileType with
  | some fileType =>
    if truthy fileType then documents.filter (fun doc => includes doc.type fileType)
    else documents
  | none => documents

/-- The filters applied to the fetched documents (lines 69-83): with a truthy search term the
function returns the documents that match it; otherwise it goes on to the file type. -/
def applyFilters (toLowerCase : String → String) (filters : Filters)
    (documents : List Document) : List Document :=
  match filters.searchTerm with
  | some searchTerm =>
    if truthy searchTerm then
      documents.filter (filterCallback toLowerCase (toLowerCase searchTerm))
    else applyFileType filters documents
  | none => applyFileType filters documents

/-- The function `getDocuments` (lines 39-87).  `currentUser` is the uid of `auth.currentUser`,
`none` when nobody is signed in; `fault` is the error with which the store rejects the query,
`none` when it answers. -/
def getDocumentsRun (toLowerCase : String → String) (currentUser : Option String)
    (store : List StoredDoc) (fault : Option JsError) (filters : Filters) : GetDocumentsRun :=
  match currentUser with
  | none =>
    { queries := [],
      result := Except.error { message := some "User must be logged in to get documents" } }
  | some uid =>
    match fault with
    | some err => { queries := [buildQuery uid filters], result := Except.error err }
    | none =>
      { queries := [buildQuery uid filters],
        result := Except.ok
          (applyFilters toLowerCase filters
            ((answerQuery store (buildQuery uid filters)).map toDocument)) }

/-- How the promise of `getDocuments` settles. -/
def getDocuments (toLowerCase : String → String) (currentUser : Option String)
    (store : List StoredDoc) (fault : Option JsError) (filters : Filters) :
    Except JsError (List Document) :=
  (getDocumentsRun toLowerCase currentUser store fault filters).result

/-- A store with two records of the user "u" and one of the user "v". -/
def exampleStore : List StoredDoc :=
  [ { id := "1", name := "Report.pdf", type := "application/pdf", size := 2048, url := "b1",
      description := none, createdAt := 100, updatedAt := 100, ownerId := "u" },
    { id := "9", name := "Other.txt", type := "text/plain", size := 7, url := "b9",
      description := none, createdAt := 150, updatedAt := 150, ownerId := "v" },
    { id := "2", name := "Photo.png", type := "image/png", size := 4096, url := "b2",
      description := none, createdAt := 200, updatedAt := 200, ownerId := "u" } ]

/-- The document `getDocuments` builds from the first record of `exampleStore`. -/
def doc1b : Document :=
  { id := "1", name := "Report.pdf", type := "application/pdf", size := 2048, url := "b1",
    description := none, createdAt := some 100, updatedAt := some 100, ownerId := "u" }

/-- The document `getDocuments` builds from the last record of `exampleStore`. -/
def doc2b : Document :=
  { id := "2", name := "Photo.png", type := "image/png", size := 4096, url := "b2",
    description := none, createdAt := some 200, updatedAt := some 200, ownerId := "u" }

/-! ## `App.js`: the upload-complete signal and the reload trigger -/

/-- The `useState` cells of `AppContent` (lines 110-116); `user` is the uid of the signed-in
user. -/
structure AppState where
  user : Option String
  loading : Bool
  drawerOpen : Bool
  selectedDocument : Option Document
  documentViewerOpen : Bool
  uploadSuccess : Bool
  profileOpen : Bool
deriving DecidableEq, Repr

/-- The payload of the upload-complete signal (`DocumentUpload.js`, lines 210-217). -/
structure UploadPayload where
  id : String
  name : String
  type : String
  size : Nat
  url : String
  description : String
deriving DecidableEq, Repr

/-- The handler `handleDocumentUploadComplete` (lines 152-158).  The second component lists
the delays, in milliseconds, of the timers it sets; each of them runs `resetUploadSuccess`. -/
def handleDocumentUploadComplete (_documentData : UploadPayload) (app : AppState) :
    AppState × List Nat :=
  ({ app with uploadSuccess := true }, [3000])

/-- The callback of the timer (line 156). -/
def resetUploadSuccess (app : AppState) : AppState :=
  { app with uploadSuccess := false }

/-- The prop `reloadTrigger` passed to the list at a render (line 332); `now` is the value of
`Date.now()` at that render. -/
def reloadTrigger (app : AppState) (now : Nat) : Nat :=
  if app.uploadSuccess then now else 0

/-- The reload effect of the list (lines 115-117) at a render after the first: it runs
`loadDocuments` when the prop differs from its value at the previous render. -/
def reloadEffect (previousTrigger trigger : Nat) (outcome : Except JsError (List Document))
    (st : ListState) : ListState :=
  if previousTrigger = trigger then st else loadDocuments outcome st

/-- An `AppContent` state with a signed-in user and no upload signalled. -/
def idleApp : AppState :=
  { user := some "u", loading := false, drawerOpen := false, selectedDocument := none,
    documentViewerOpen := false, uploadSuccess := false, profileOpen := false }

/-! ## `firebase/storage.js` and `firebase/firestore.js`: deleting, over a model of the backend

The backend is the signed-in user, the collection `documents` and the objects of the blob
store, named by their URL.  Deleting an existing object succeeds and deleting a missing
object fails, as `deleteObject` of the storage service does; every remote call can also be
rejected with an error of its own (a network failure). -/

/-- The backend: the uid of `auth.currentUser`, the metadata store and the blob store. -/
structure Backend where
  currentUser : Option String
  documents : List StoredDoc
  blobs : List String
deriving DecidableEq, Repr

/-- The errors with which the backend rejects the remote calls of a run, `none` for a call it
serves. -/
structure Faults where
  getDoc : Option JsError
  deleteObject : Option JsError
  deleteDoc : Option JsError
deriving DecidableEq, Repr

/-- The backend serves every call. -/
def Faults.none : Faults :=
  { getDoc := Option.none, deleteObject := Option.none, deleteDoc := Option.none }

/-- A remote operation issued to the backend. -/
inductive StoreOp where
  | getDoc (id : String)
  | deleteObject (fileUrl : String)
  | deleteDoc (id : String)
deriving DecidableEq, Repr

/-- A run of `deleteFile` or `deleteDocument`: how the promise settles, the backend after the
run and the remote operations issued, in order. -/
structure DeleteRun where
  result : Except JsError Bool
  backend : Backend
  ops : List StoreOp

/-- The remote operation `deleteObject(fileRef)`: it removes an existing object and rejects
for a missing one. -/
def deleteObject (b : Backend) (fault : Option JsError) (fileUrl : String) :
    Except JsError Backend :=
  match fault with
  | some err => Except.error err
  | none =>
    if fileUrl ∈ b.blobs then Except.ok { b with blobs := b.blobs.filter (fun u => u != fileUrl) }
    else Except.error { message := some "storage/object-not-found" }

/-- The function `deleteFile` (`storage.js`, lines 77-91). -/
def deleteFile (b : Backend) (faults : Faults) (fileUrl : String) : DeleteRun :=
  match b.currentUser with
  | none =>
    { result := Except.error { message := some "User must be logged in to delete files" },
      backend := b, ops := [] }
  | some _ =>
    match deleteObject b faults.deleteObject fileUrl with
    | Except.ok b' =>
      { result := Except.ok true, backend := b', ops := [StoreOp.deleteObject fileUrl] }
    | Except.error err =>
      { result := Except.error err, backend := b, ops := [StoreOp.deleteObject fileUrl] }

/-- The part of `deleteDocument` after the checks (lines 161-169): the file is deleted from
storage first, when the record has a truthy `url`, then the metadata record. -/
def deleteOwned (b : Backend) (faults : Faults) (id : String) (data : StoredDoc) : DeleteRun :=
  let fileRun : DeleteRun :=
    if truthy data.url then deleteFile b faults data.url
    else { result := Except.ok true, backend := b, ops := [] }
  match fileRun.result with
  | Except.error err =>
    { result := Except.error err, backend := fileRun.backend,
      ops := StoreOp.getDoc id :: fileRun.ops }
  | Except.ok _ =>
    match faults.deleteDoc with
    | some err =>
      { result := Except.error err, backend := fileRun.backend,
        ops := StoreOp.getDoc id :: (fileRun.ops ++ [StoreOp.deleteDoc id]) }
    | none =>
      { result := Except.ok true,
        backend :=
          { fileRun.backend with
              documents := fileRun.backend.documents.filter (fun d => d.id != id) },
        ops := StoreOp.getDoc id :: (fileRun.ops ++ [StoreOp.deleteDoc id]) }

/-- The function `deleteDocument` (`firestore.js`, lines 142-173). -/
def deleteDocument (b : Backend) (faults : Faults) (id : String) : DeleteRun :=
  match b.currentUser with
  | none =>
    { result := Except.error { message := some "User must be logged in to delete documents" },
      backend := b, ops := [] }
  | some uid =>
    match faults.getDoc with
    | some err => { result := Except.error err, backend := b, ops := [StoreOp.getDoc id] }
    | none =>
      match b.documents.find? (fun d => d.id == id) with
      | none =>
        { result := Except.error { message := some "Document not found" }, backend := b,
          ops := [StoreOp.getDoc id] }
      | some data =>
        if data.ownerId != uid then
          { result := Except.error { message := some "Not authorized to delete this document" },
            backend := b, ops := [StoreOp.getDoc id] }
        else deleteOwned b faults id data

/-- The viewer's delete (`DocumentViewer.js`, lines 124-144) run against the backend: the two
awaited calls settle as `deleteFile` and `deleteDocument` settle on it.  The result is the run
of the handler and the backend afterwards. -/
def viewerDelete (b : Backend) (faults : Faults) (confirmed : Bool) (document : Document)
    (hasOnDelete loading : Bool) : ViewerRun × Backend :=
  if confirmed then
    let fileRun := deleteFile b faults document.url
    match fileRun.result with
    | Except.error err =>
      (handleDeleteClick true (Except.error err) (Except.error err) document hasOnDelete loading,
        fileRun.backend)
    | Except.ok v =>
      let docRun := deleteDocument fileRun.backend faults document.id
      (handleDeleteClick true (Except.ok v) docRun.result document hasOnDelete loading,
        docRun.backend)
  else
    (handleDeleteClick false (Except.ok true) (Except.ok true) document hasOnDelete loading, b)

/-- The card's delete (`DocumentCard.js`, lines 95-108) run against the backend. -/
def cardDelete (b : Backend) (faults : Faults) (document : Document) (hasOnDelete : Bool)
    (cs : CardState) : (CardState × List String) × Backend :=
  let docRun := deleteDocument b faults document.id
  (handleDeleteConfirm docRun.result document hasOnDelete cs, docRun.backend)

/-- A backend where the user "u" is signed in and every record of `exampleStore` has its
blob. -/
def exampleBackend : Backend :=
  { currentUser := some "u", documents := exampleStore, blobs := ["b1", "b9", "b2"] }

/-! ## `DocumentList.js`: the events of the list and the runs of the effect -/

/-- The handler `handleSearchChange` (lines 152-154). -/
def handleSearchChange (value : String) (st : ListState) : ListState :=
  { st with searchQuery := value }

/-- The handler `handleSortChange` (lines 156-158). -/
def handleSortChange (value : SortKey) (st : ListState) : ListState :=
  { st with sortBy := value }

/-- What can happen to the list: a call of `loadDocuments` settles (after the mount, a change
of `reloadTrigger` or a click on "Refresh"), a card reports a delete, the search text or the
sort key changes. -/
inductive ListAction where
  | loadSettled (outcome : Except JsError (List Document))
  | documentDeleted (documentId : String)
  | searchChanged (value : String)
  | sortChanged (value : SortKey)

/-- The state updates of an event. -/
def ListAction.apply (a : ListAction) (st : ListState) : ListState :=
  match a with
  | ListAction.loadSettled outcome => loadDocuments outcome st
  | ListAction.documentDeleted documentId => handleDocumentDelete documentId st
  | ListAction.searchChanged value => handleSearchChange value st
  | ListAction.sortChanged value => handleSortChange value st

/-- Whether the event changes a dependency of the filter and sort effect (line 150).  React
compares the array `documents` by identity: the array a load returns and the array `filter`
returns are new ones.  The search text and the sort key are compared by value. -/
def ListAction.changesDeps (a : ListAction) (st : ListState) : Bool :=
  match a with
  | ListAction.loadSettled (Except.ok _) => true
  | ListAction.loadSettled (Except.error _) => false
  | ListAction.documentDeleted _ => true
  | ListAction.searchChanged value => value != st.searchQuery
  | ListAction.sortChanged value => value != st.sortBy

/-- The state once an event has settled: the updates of the event, then the effect when one
of its dependencies changed. -/
def settle (toLowerCase : String → String) (st : ListState) (a : ListAction) : ListState :=
  if a.changesDeps st then filterSortEffect toLowerCase (a.apply st) else a.apply st

/-- The state once the mount has settled: the effect runs on the initial state. -/
def mounted (toLowerCase : String → String) : ListState :=
  filterSortEffect toLowerCase ListState.initial

/-! ## `services/storageService.js` -/

/-- The properties of a fetched document that the storage service reads: `size`, `none` when
the stored data has no size, and `type`. -/
structure StatsDoc where
  size : Option Nat
  type : String
deriving DecidableEq, Repr

/-- A document as `getDocuments` returns it, seen by the storage service. -/
def Document.toStatsDoc (d : Document) : StatsDoc :=
  { size := some d.size, type := d.type }

/-- The expression `doc.size || 0`: a missing size and the size 0 are falsy. -/
def sizeOrZero : Option Nat → Nat
  | none => 0
  | some n => if n = 0 then 0 else n

/-- The function `getDocumentCategory` (lines 49-57). -/
def getDocumentCategory (mimeType : String) : String :=
  if includes mimeType "pdf" then "PDFs"
  else if includes mimeType "image" then "Images"
  else if includes mimeType "word" || includes mimeType "document" then "Documents"
  else if includes mimeType "excel" || includes mimeType "spreadsheet" then "Spreadsheets"
  else if includes mimeType "presentation" then "Presentations"
  else if includes mimeType "text" then "Text Files"
  else "Other"

/-- The update `acc[type] = (acc[type] || 0) + 1` on an object seen as the list of its
properties in insertion order. -/
def bumpCount (acc : List (String × Nat)) (key : String) : List (String × Nat) :=
  match acc with
  | [] => [(key, 1)]
  | (k, n) :: rest => if k = key then (k, n + 1) :: rest else (k, n) :: bumpCount rest key

/-- The object `getUserStorageStats` resolves with.  `breakdown` is `none` where the object
has no such property.  The property `averageFileSize`, a floating-point quotient, is left
out. -/
structure StorageStats where
  used : Nat
  total : Nat
  files : Nat
  documents : List StatsDoc
  breakdown : Option (List (String × Nat))
deriving DecidableEq, Repr

/-- The function `getUserStorageStats` (lines 4-47), given the uid of `auth.currentUser` and
how the awaited `getDocuments()` settles. -/
def getUserStorageStats (currentUser : Option String)
    (outcome : Except JsError (List StatsDoc)) : StorageStats :=
  match currentUser with
  | none => { used := 0, total := 5 * 1024 * 1024 * 1024, files := 0, documents := [],
              breakdown := none }
  | some _ =>
    match outcome with
    | Except.ok documents =>
      let totalSize := documents.foldl (fun sum doc => sum + sizeOrZero doc.size) 0
      let documentsByType :=
        documents.foldl (fun acc doc => bumpCount acc (getDocumentCategory doc.type)) []
      { used := totalSize, total := 5 * 1024 * 1024 * 1024, files := documents.length,
        documents := documents, breakdown := some documentsByType }
    | Except.error _ =>
      { used := 0, total := 5 * 1024 * 1024 * 1024, files := 0, documents := [],
        breakdown := some [] }

/-- The MIME type of an XLSX spreadsheet. -/
def xlsxType : String :=
  "application/vnd.openxmlformats-officedocument.spreadsheetml.sheet"

/-- The MIME type of a PPTX presentation. -/
def pptxType : String :=
  "application/vnd.openxmlformats-officedocument.presentationml.presentation"

/-! ## The specification's vocabulary for the index classification -/

/-- At offset `i` the text has the console origin followed by at least one character that is
not white space. -/
def UrlAt (cs : List Char) (i : Nat) : Prop :=
  ∃ c rest, cs.drop i = consoleOrigin ++ c :: rest ∧ isWhiteSpace c = false

/-- The occurrence of the console origin at offset `i`, extended to the next white space or
to the end of the text. -/
def urlFrom (cs : List Char) (i : Nat) : List Char :=
  consoleOrigin ++ (cs.drop (i + consoleOrigin.length)).takeWhile (fun c => !isWhiteSpace c)

/-- Filters with both a search term and a file type. -/
def reportImageFilters : Filters :=
  { searchTerm := some "report", fileType := some "image", sortBy := Option.none,
    sortDirection := Option.none }

/-! ## `utils/index.js` and `constants/index.js`: validation and file names -/

/-- The constant `ALLOWED_FILE_TYPES` (`constants/index.js`, lines 7-23). -/
def ALLOWED_FILE_TYPES : List String :=
  [ "application/pdf",
    "application/msword",
    "application/vnd.openxmlformats-officedocument.wordprocessingml.document",
    "application/vnd.ms-excel",
    "application/vnd.openxmlformats-officedocument.spreadsheetml.sheet",
    "application/vnd.ms-powerpoint",
    "application/vnd.openxmlformats-officedocument.presentationml.presentation",
    "text/plain",
    "text/csv",
    "image/jpeg",
    "image/png",
    "image/gif",
    "image/svg+xml",
    "application/zip",
    "application/x-rar-compressed" ]

/-- The constant `MAX_FILE_SIZE` (`constants/index.js`, line 6). -/
def MAX_FILE_SIZE : Nat := 50 * 1024 * 1024

/-- The local array `supportedTypes` of `isSupportedFileType` (lines 55-71). -/
def supportedTypes : List String :=
  [ "application/pdf",
    "application/msword",
    "application/vnd.openxmlformats-officedocument.wordprocessingml.document",
    "application/vnd.ms-excel",
    "application/vnd.openxmlformats-officedocument.spreadsheetml.sheet",
    "application/vnd.ms-powerpoint",
    "application/vnd.openxmlformats-officedocument.presentationml.presentation",
    "text/plain",
    "text/csv",
    "image/jpeg",
    "image/png",
    "image/gif",
    "image/svg+xml",
    "application/zip",
    "application/x-rar-compressed" ]

/-- The method `String.prototype.startsWith(searchString)`. -/
def startsWith (s q : String) : Bool :=
  q.toList.isPrefixOf s.toList

/-- The function `isSupportedFileType` (lines 54-74). -/
def isSupportedFileType (mimeType : String) : Bool :=
  supportedTypes.contains mimeType || startsWith mimeType "image/"

/-- The properties of a `File` that the validation reads. -/
structure File where
  name : String
  size : Nat
  type : String
deriving DecidableEq, Repr

/-- The function `validateFile` (lines 77-94).  `file` is `none` for a falsy argument.  The
function `formatFileSize` (lines 4-12) computes with floating-point logarithms and is taken
as a parameter. -/
def validateFile (formatFileSize : Nat → String) (file : Option File) (maxSize : Nat) :
    List String :=
  let errors : List String := []
  match file with
  | none => errors ++ ["No file selected"]
  | some file =>
    let errors :=
      if file.size > maxSize then errors ++ ["File size exceeds " ++ formatFileSize maxSize]
      else errors
    let errors :=
      if !isSupportedFileType file.type then errors ++ ["File type not supported"]
      else errors
    errors

/-- The character class `[a-zA-Z0-9.-_]` of line 98, as the regular expression reads it: the
ranges `a-z`, `A-Z`, `0-9`, and the range from `.` to `_`. -/
def inSanitizeClass (c : Char) : Bool :=
  ('a'.toNat ≤ c.toNat && c.toNat ≤ 'z'.toNat) ||
    ('A'.toNat ≤ c.toNat && c.toNat ≤ 'Z'.toNat) ||
    ('0'.toNat ≤ c.toNat && c.toNat ≤ '9'.toNat) ||
    ('.'.toNat ≤ c.toNat && c.toNat ≤ '_'.toNat)

/-- The replacement of one code point by `replace(/[^a-zA-Z0-9.-_]/g, '_')`: the pattern has
no `u` flag and works on UTF-16 code units, so a code point above the basic plane, which is
two surrogate units, becomes two underscores. -/
def sanitizeChar (c : Char) : List Char :=
  if inSanitizeClass c then [c]
  else if c.toNat < 0x10000 then ['_']
  else ['_', '_']

/-- The function `sanitizeFileName` (lines 97-99). -/
def sanitizeFileName (fileName : String) : String :=
  String.mk (fileName.toList.flatMap sanitizeChar)

/-! ## Facts about the built-ins -/

/-- The substring search finds `q` exactly when `q` is a contiguous part of `s`. -/
theorem includesList_iff (s q : List Char) : includesList s q = true ↔ q <:+: s := by
  induction s with
  | nil => simp [includesList, List.infix_nil]
  | cons c rest ih =>
    rw [includesList, Bool.or_eq_true, ih, List.isPrefixOf_iff_prefix, List.infix_cons_iff]

/-- The comparison on code units is the lexicographic order of lists. -/
theorem lexLt_iff_lex (a b : List Nat) : lexLt a b = true ↔ List.Lex (· < ·) a b := by
  induction a generalizing b with
  | nil =>
    cases b with
    | nil => simp [lexLt, List.Lex.not_nil_right]
    | cons y ys => simpa [lexLt] using List.Lex.nil
  | cons x xs ih =>
    cases b with
    | nil => simp [lexLt, List.Lex.not_nil_right]
    | cons y ys =>
      rw [lexLt]
      constructor
      · intro h
        by_cases hxy : x < y
        · exact List.Lex.rel hxy
        · by_cases hyx : y < x
          · simp [hxy, hyx] at h
          · have hEq : x = y := by omega
            subst hEq
            simp only [hxy, if_false] at h
            exact List.Lex.cons ((ih ys).1 h)
      · intro h
        rcases h with _ | h | h
        · simp [(ih ys).2 h]
        · simp [h]

/-- The comparison on code units is the order of `List Nat`. -/
theorem lexLt_iff (a b : List Nat) : lexLt a b = true ↔ a < b :=
  lexLt_iff_lex a b

/-- Not being smaller is being at least as large, on code units. -/
theorem stringLt_false_iff (a b : String) : stringLt a b = false ↔ codeUnits b ≤ codeUnits a := by
  rw [← not_lt, ← lexLt_iff, stringLt, Bool.not_eq_true]

/-- The three-way result is non-positive exactly when the first value is not smaller. -/
theorem descending_le_iff {β : Type} (lt : β → β → Bool) (x y : β) :
    descending lt x y ≤ 0 ↔ lt x y = false := by
  unfold descending
  cases lt x y <;> cases lt y x <;> simp

/-- The comparator puts `a` first or ties exactly when the key of `a` is at least that of
`b`. -/
theorem compareDocs_le_iff (k : SortKey) (a b : Document) :
    compareDocs k a b ≤ 0 ↔ KeyGe k a b := by
  cases k <;>
    simp only [compareDocs, KeyGe, descending_le_iff, stringLt_false_iff, decide_eq_false_iff_not,
      not_lt]

/-- Any two records are comparable. -/
theorem keyGe_total (k : SortKey) (a b : Document) : KeyGe k a b ∨ KeyGe k b a := by
  cases k <;> simp only [KeyGe] <;> exact le_total _ _

/-- The key order is transitive. -/
theorem keyGe_trans (k : SortKey) (a b c : Document) (h₁ : KeyGe k a b) (h₂ : KeyGe k b c) :
    KeyGe k a c := by
  cases k <;> simp only [KeyGe] at * <;> exact le_trans h₂ h₁

instance compareDocs_isTotal (k : SortKey) :
    IsTotal Document (fun a b => compareDocs k a b ≤ 0) :=
  ⟨fun a b => by simpa only [compareDocs_le_iff] using keyGe_total k a b⟩

instance compareDocs_isTrans (k : SortKey) :
    IsTrans Document (fun a b => compareDocs k a b ≤ 0) :=
  ⟨fun a b c h₁ h₂ => by
    simp only [compareDocs_le_iff] at *
    exact keyGe_trans k a b c h₁ h₂⟩

/-- A tie of the comparator is a tie of the keys in both directions. -/
theorem compareDocs_eq_zero_iff (k : SortKey) (a b : Document) :
    compareDocs k a b = 0 ↔ KeyGe k a b ∧ KeyGe k b a := by
  have key : ∀ {β : Type} (lt : β → β → Bool) (x y : β),
      descending lt x y = 0 ↔ lt x y = false ∧ lt y x = false := by
    intro β lt x y
    unfold descending
    cases lt x y <;> cases lt y x <;> simp
  cases k <;>
    simp only [compareDocs, KeyGe, key, stringLt_false_iff, decide_eq_false_iff_not, not_lt]


/-- A string is truthy exactly when it is not empty. -/
theorem truthy_iff (s : String) : truthy s = true ↔ s ≠ "" := by
  cases s with
  | mk data => cases data <;> simp [truthy, String.ext_iff]

/-- The effect is a filter by `kept` followed by the sort. -/
theorem project_eq_sort_filter (toLowerCase : String → String) (L : List Document) (s : String)
    (k : SortKey) :
    project toLowerCase L s k = arraySort (compareDocs k) (L.filter (kept toLowerCase s)) := by
  unfold project kept
  cases h : truthy s <;> simp

/-- A record that passes the test of the effect satisfies the predicate of the
specification. -/
theorem kept_imp_keeps (toLowerCase : String → String) (s : String) (r : Document)
    (h : kept toLowerCase s r = true) : Keeps toLowerCase s r := by
  unfold kept at h
  by_cases hs : s = ""
  · exact Or.inl hs
  · have ht : truthy s = true := (truthy_iff s).2 hs
    simp only [ht, Bool.not_true, Bool.false_or] at h
    unfold filterCallback at h
    rw [Bool.or_eq_true] at h
    rcases h with h | h
    · exact Or.inr (Or.inl ((includesList_iff _ _).1 h))
    · cases hd : r.description with
      | none => simp [hd] at h
      | some d =>
        simp only [hd, Bool.and_eq_true] at h
        exact Or.inr (Or.inr ⟨d, hd, (includesList_iff _ _).1 h.2⟩)

/-- A record that satisfies the predicate of the specification passes the test of the
effect, when lower-casing maps the empty string to itself. -/
theorem keeps_imp_kept (toLowerCase : String → String) (h0 : toLowerCase "" = "") (s : String)
    (r : Document) (h : Keeps toLowerCase s r) : kept toLowerCase s r = true := by
  unfold kept
  by_cases hs : s = ""
  · have : truthy s = false := by
      rw [← Bool.not_eq_true, truthy_iff]; exact not_not.2 hs
    simp [this]
  · have hname : ∀ (h : (toLowerCase s).toList <:+: (toLowerCase r.name).toList),
        filterCallback toLowerCase (toLowerCase s) r = true := by
      intro h
      unfold filterCallback
      rw [Bool.or_eq_true]
      exact Or.inl ((includesList_iff _ _).2 h)
    rw [Bool.or_eq_true]
    right
    rcases h with h | h | ⟨d, hd, h⟩
    · exact absurd h hs
    · exact hname h
    · by_cases hde : d = ""
      · subst hde
        rw [h0] at h
        have hq : (toLowerCase s).toList = [] := List.infix_nil.1 h
        apply hname
        rw [hq]
        exact List.nil_infix
      · unfold filterCallback
        rw [Bool.or_eq_true]
        right
        simp only [hd, Bool.and_eq_true]
        exact ⟨(truthy_iff d).2 hde, (includesList_iff _ _).2 h⟩

/-! ## The projection (claims C1 to C5) -/

/-- Claim C1. For every authoritative list `L`, search term `s` and sort key `k`, every record
of the display list `project L s k` satisfies the filter predicate for `s`: `s` is empty, or the
lower-cased name contains the lower-cased `s`, or the record has a description whose lower-cased
text contains the lower-cased `s`.  It holds for every lower-casing function. -/
theorem project_mem_keeps (toLowerCase : String → String) (L : List Document) (s : String)
    (k : SortKey) (r : Document) (hr : r ∈ project toLowerCase L s k) :
    Keeps toLowerCase s r := by
  rw [project_eq_sort_filter, arraySort, List.mem_insertionSort, List.mem_filter] at hr
  exact kept_imp_keeps toLowerCase s r hr.2

/-- Claim C1 at the scenario list: record 1 is displayed for the search "report" and satisfies
the predicate. -/
theorem project_mem_keeps_witness :
    doc1 ∈ project asciiLower scenarioList "report" SortKey.size ∧
      Keeps asciiLower "report" doc1 :=
  ⟨by decide, project_mem_keeps asciiLower scenarioList "report" SortKey.size doc1 (by decide)⟩

/-- Claim C2. For every `L`, `s` and `k` the display list is a permutation of the sub-list of
`L` whose records satisfy the filter predicate for `s`, so that no matching record is dropped
and none is duplicated; with the empty search term it is a permutation of `L`; and on the
two-record list of the scenarios the search "report" displays exactly record 1 under every sort
key.  The lower-casing function is any function that maps the empty string to itself. -/
theorem project_perm_filter (toLowerCase : String → String) (h0 : toLowerCase "" = "")
    (L : List Document) (s : String) (k : SortKey) :
    (project toLowerCase L s k).Perm (L.filter (fun r => decide (Keeps toLowerCase s r))) ∧
      (project toLowerCase L "" k).Perm L ∧
      project asciiLower scenarioList "report" k = [doc1] := by
  refine ⟨?_, ?_, ?_⟩
  · rw [project_eq_sort_filter, arraySort]
    refine (List.perm_insertionSort _ _).trans ?_
    have hfun : kept toLowerCase s = fun r => decide (Keeps toLowerCase s r) := by
      funext r
      rw [Bool.eq_iff_iff, decide_eq_true_iff]
      exact ⟨kept_imp_keeps toLowerCase s r, keeps_imp_kept toLowerCase h0 s r⟩
    rw [hfun]
  · rw [project_eq_sort_filter, arraySort]
    refine (List.perm_insertionSort _ _).trans ?_
    have : kept toLowerCase "" = fun _ => true := by
      funext r
      simp [kept, truthy]
    rw [this, List.filter_true]
  · cases k <;> decide

/-- Claim C2 at the scenario list with the search "photo" and ASCII lower-casing. -/
theorem project_perm_filter_witness :
    asciiLower "" = "" ∧
      (project asciiLower scenarioList "photo" SortKey.name).Perm
        (scenarioList.filter (fun r => decide (Keeps asciiLower "photo" r))) :=
  ⟨by decide, (project_perm_filter asciiLower (by decide) scenarioList "photo" SortKey.name).1⟩


/-- The sorted array is in descending order of the key, pair by pair. -/
theorem arraySort_sorted (k : SortKey) (xs : List Document) :
    List.Pairwise (KeyGe k) (arraySort (compareDocs k) xs) := by
  have h := List.sorted_insertionSort (fun a b => compareDocs k a b ≤ 0) xs
  exact List.Pairwise.imp (fun {a b} hab => (compareDocs_le_iff k a b).1 hab) h

/-- Claim C3. For every `L`, `s` and sort key `k` the display list is sorted in descending
order of the key of `k`: each adjacent pair `(a, b)` has `key a ≥ key b` (and so has every
earlier and later pair), where the key is the raw string in code unit order for `name` and
`type`, the number for `size` and the epoch instant for the dates.  On the list of the
scenarios the display is `[record 2, record 1]` under `createdAt` and under `size`. -/
theorem project_sorted_desc (toLowerCase : String → String) (L : List Document) (s : String)
    (k : SortKey) :
    List.Chain' (KeyGe k) (project toLowerCase L s k) ∧
      List.Pairwise (KeyGe k) (project toLowerCase L s k) ∧
      project asciiLower scenarioList "" SortKey.createdAt = [doc2, doc1] ∧
      project asciiLower scenarioList "" SortKey.size = [doc2, doc1] := by
  have h : List.Pairwise (KeyGe k) (project toLowerCase L s k) := by
    rw [project_eq_sort_filter]
    exact arraySort_sorted k _
  exact ⟨List.Pairwise.chain' h, h, by decide, by decide⟩

/-- The records that tie with `a`, taken from the sorted array in its order, are the records
that tie with `a` taken from the input in its order. -/
theorem arraySort_filter_tie (k : SortKey) (a : Document) (xs : List Document) :
    (arraySort (compareDocs k) xs).filter (fun x => decide (compareDocs k a x = 0)) =
      xs.filter (fun x => decide (compareDocs k a x = 0)) := by
  set p : Document → Bool := fun x => decide (compareDocs k a x = 0) with hp
  have hpair : (xs.filter p).Pairwise (fun x y => compareDocs k x y ≤ 0) := by
    rw [List.pairwise_iff_forall_sublist]
    intro x y hxy
    have hx : x ∈ xs.filter p := hxy.subset (by simp)
    have hy : y ∈ xs.filter p := hxy.subset (by simp)
    have hx' := (List.mem_filter.1 hx).2
    have hy' := (List.mem_filter.1 hy).2
    simp only [hp, decide_eq_true_eq, compareDocs_eq_zero_iff] at hx' hy'
    rw [compareDocs_le_iff]
    exact keyGe_trans k x a y hx'.2 hy'.1
  have hsub : List.Sublist (xs.filter p) (arraySort (compareDocs k) xs) :=
    List.sublist_insertionSort hpair (List.filter_sublist xs)
  have hsub' : List.Sublist (xs.filter p) ((arraySort (compareDocs k) xs).filter p) := by
    have := hsub.filter p
    simpa only [List.filter_filter, Bool.and_self] using this
  have hperm : ((arraySort (compareDocs k) xs).filter p).Perm (xs.filter p) :=
    (List.perm_insertionSort _ xs).filter p
  exact (hsub'.eq_of_length hperm.length_eq.symm).symm

/-- Claim C4. Ties are broken by input order: for every `L`, `s` and `k`, two records `a` and
`b` of the display list on which the comparator returns 0 appear in the display list in the
same relative order as in the authoritative list `L`: `a` stands before `b` in the display list
exactly when `a` stands before `b` in `L`. -/
theorem project_stable (toLowerCase : String → String) (L : List Document) (s : String)
    (k : SortKey) (a b : Document) (ha : a ∈ project toLowerCase L s k)
    (hb : b ∈ project toLowerCase L s k) (hab : compareDocs k a b = 0) :
    List.Sublist [a, b] (project toLowerCase L s k) ↔ List.Sublist [a, b] L := by
  rw [project_eq_sort_filter] at ha hb ⊢
  constructor
  · intro h
    have haa : compareDocs k a a = 0 := by
      rw [compareDocs_eq_zero_iff] at hab ⊢
      have := keyGe_trans k a b a hab.1 hab.2
      exact ⟨this, this⟩
    have h1 := h.filter (fun x => decide (compareDocs k a x = 0))
    rw [arraySort_filter_tie] at h1
    have h2 : [a, b].filter (fun x => decide (compareDocs k a x = 0)) = [a, b] := by
      simp [haa, hab]
    rw [h2] at h1
    exact (h1.trans (List.filter_sublist _)).trans (List.filter_sublist _)
  · intro h
    rw [arraySort, List.mem_insertionSort, List.mem_filter] at ha hb
    have h1 := h.filter (kept toLowerCase s)
    have h2 : [a, b].filter (kept toLowerCase s) = [a, b] := by
      simp [ha.2, hb.2]
    rw [h2] at h1
    exact List.pair_sublist_insertionSort (le_of_eq hab) h1

/-- Claim C4 at the scenario list under `updatedAt`, where both records miss the date and
tie: they are displayed in the order of the list. -/
theorem project_stable_witness :
    doc1 ∈ project asciiLower scenarioList "" SortKey.updatedAt ∧
      doc2 ∈ project asciiLower scenarioList "" SortKey.updatedAt ∧
      compareDocs SortKey.updatedAt doc1 doc2 = 0 ∧
      (List.Sublist [doc1, doc2] (project asciiLower scenarioList "" SortKey.updatedAt) ↔
        List.Sublist [doc1, doc2] scenarioList) :=
  ⟨by decide, by decide, by decide,
    project_stable asciiLower scenarioList "" SortKey.updatedAt doc1 doc2 (by decide) (by decide)
      (by decide)⟩

/-- Claim C5. Recomputing the projection is idempotent: for every `L`, `s` and `k`, applying
`project` with the same `s` and `k` to its own output returns that output unchanged; and two
computations from identical inputs give identical display lists. -/
theorem project_idempotent (toLowerCase : String → String) (L : List Document) (s : String)
    (k : SortKey) :
    project toLowerCase (project toLowerCase L s k) s k = project toLowerCase L s k ∧
      ∀ (L' : List Document) (s' : String) (k' : SortKey), L' = L → s' = s → k' = k →
        project toLowerCase L' s' k' = project toLowerCase L s k := by
  refine ⟨?_, ?_⟩
  · have hall : ∀ r ∈ project toLowerCase L s k, kept toLowerCase s r = true := by
      intro r hr
      rw [project_eq_sort_filter, arraySort, List.mem_insertionSort, List.mem_filter] at hr
      exact hr.2
    rw [project_eq_sort_filter toLowerCase (project toLowerCase L s k),
      List.filter_eq_self.2 hall]
    rw [project_eq_sort_filter, arraySort, arraySort]
    exact List.Sorted.insertionSort_eq (List.sorted_insertionSort _ _)
  · intro L' s' k' hL hs hk
    rw [hL, hs, hk]

/-- Claim C5 at the scenario list with the search "p" under `name`. -/
theorem project_idempotent_witness :
    project asciiLower (project asciiLower scenarioList "p" SortKey.name) "p" SortKey.name =
      project asciiLower scenarioList "p" SortKey.name :=
  (project_idempotent asciiLower scenarioList "p" SortKey.name).1

/-! ## The delete handlers (claims C6 to C8) -/

/-- Filtering out an id that no record carries changes nothing. -/
theorem filter_id_ne_eq_self (d : String) (L : List Document) (h : ∀ r ∈ L, r.id ≠ d) :
    L.filter (fun doc => doc.id != d) = L := by
  rw [List.filter_eq_self]
  intro r hr
  simpa using h r hr

/-- Filtering out an id that one record of a list with unique ids carries removes exactly
that record. -/
theorem filter_id_ne_removes (d : String) (L : List Document)
    (hnodup : (L.map Document.id).Nodup) (hmem : ∃ r ∈ L, r.id = d) :
    RemovedExactly d L (L.filter (fun doc => doc.id != d)) := by
  obtain ⟨r, hr, hrd⟩ := hmem
  obtain ⟨pre, post, hL⟩ := List.append_of_mem hr
  subst hL
  rw [List.map_append, List.map_cons, List.nodup_append] at hnodup
  obtain ⟨_, hpost, hdisj⟩ := hnodup
  have hpre' : ∀ x ∈ pre, x.id ≠ d := by
    intro x hx hxd
    exact hdisj (List.mem_map_of_mem Document.id hx) (by rw [hxd, ← hrd]; simp)
  have hpost' : ∀ x ∈ post, x.id ≠ d := by
    intro x hx hxd
    have := (List.nodup_cons.1 hpost).1
    exact this (by rw [hrd, ← hxd]; exact List.mem_map_of_mem Document.id hx)
  have hout : (pre ++ r :: post).filter (fun doc => doc.id != d) = pre ++ post := by
    rw [List.filter_append, List.filter_cons, filter_id_ne_eq_self d pre hpre',
      filter_id_ne_eq_self d post hpost']
    simp [hrd]
  refine ⟨pre, r, post, rfl, hrd, hout, ?_, ?_, ?_⟩
  · rw [hout]; simp; omega
  · intro x hx
    have := (List.mem_filter.1 hx).2
    simpa using this
  · intro x hx hxd
    exact List.mem_filter.2 ⟨hx, by simpa using hxd⟩

/-- Claim C6. For every authoritative list `L` with unique ids and every id `d` present in
`L`, both delete handlers (`handleDocumentDelete` of `DocumentList.js` and
`handleDocumentDeleted` of `DocumentList.tsx`) yield `L` with exactly the record of id `d`
removed: the result is one shorter, holds no record of id `d`, and holds every other record of
`L` in its original relative order.  On the list of the scenarios, deleting id 2 leaves
`[record 1]`. -/
theorem handleDocumentDelete_removes (L : List Document) (d : String)
    (hnodup : (L.map Document.id).Nodup) (hmem : ∃ r ∈ L, r.id = d)
    (st : ListState) (ts : TsListState) (hasCallback : Bool)
    (hst : st.documents = L) (hts : ts.documents = L) :
    RemovedExactly d L (handleDocumentDelete d st).documents ∧
      RemovedExactly d L (handleDocumentDeleted d hasCallback ts).1.documents ∧
      (handleDocumentDelete "2" { ListState.initial with documents := scenarioList }).documents
        = [doc1] := by
  subst hst
  refine ⟨filter_id_ne_removes d _ hnodup hmem, ?_, by decide⟩
  have e : (handleDocumentDeleted d hasCallback ts).1.documents =
      st.documents.filter (fun doc => doc.id != d) := by
    simp only [handleDocumentDeleted, hts]
  rw [e]
  exact filter_id_ne_removes d _ hnodup hmem

/-- Claim C6 at the scenario list, whose ids are unique, for the id 2. -/
theorem handleDocumentDelete_removes_witness :
    (scenarioList.map Document.id).Nodup ∧ (∃ r ∈ scenarioList, r.id = "2") ∧
      RemovedExactly "2" scenarioList
        (handleDocumentDelete "2"
          { ListState.initial with documents := scenarioList }).documents :=
  ⟨by decide, ⟨doc2, by decide, by decide⟩,
    (handleDocumentDelete_removes scenarioList "2" (by decide) ⟨doc2, by decide, by decide⟩
      { ListState.initial with documents := scenarioList }
      { documents := scenarioList, loading := false, error := "", refreshCount := 0 } true
      rfl rfl).1⟩

/-- Claim C7. Local delete is idempotent: for every state and every id `d` that no record of
the authoritative list carries, the delete handler returns the state unchanged (a no-op; the
handler is total, there is no error); and for every state, deleting the same id twice gives the
same state as deleting it once. -/
theorem handleDocumentDelete_absent (st : ListState) (d : String)
    (habs : ∀ r ∈ st.documents, r.id ≠ d) :
    handleDocumentDelete d st = st ∧
      ∀ st' : ListState,
        handleDocumentDelete d (handleDocumentDelete d st') = handleDocumentDelete d st' := by
  refine ⟨?_, ?_⟩
  · unfold handleDocumentDelete
    rw [filter_id_ne_eq_self d _ habs]
  · intro st'
    unfold handleDocumentDelete
    simp [List.filter_filter]

/-- Claim C7 at the scenario list for the absent id 3. -/
theorem handleDocumentDelete_absent_witness :
    (∀ r ∈ scenarioList, r.id ≠ "3") ∧
      handleDocumentDelete "3" { ListState.initial with documents := scenarioList } =
        { ListState.initial with documents := scenarioList } :=
  ⟨by decide,
    (handleDocumentDelete_absent { ListState.initial with documents := scenarioList } "3"
      (by decide)).1⟩

/-- Claim C8. Local deletes of different ids commute: for every state and ids `a ≠ b`,
removing `a` then `b` from the authoritative list gives the same state as removing `b` then
`a`. -/
theorem handleDocumentDelete_comm (st : ListState) (a b : String) (_hab : a ≠ b) :
    handleDocumentDelete b (handleDocumentDelete a st) =
      handleDocumentDelete a (handleDocumentDelete b st) := by
  unfold handleDocumentDelete
  simp only [List.filter_filter]
  congr 1
  apply List.filter_congr
  intro x _
  exact Bool.and_comm _ _

/-- Claim C8 at the scenario list for the ids 1 and 2. -/
theorem handleDocumentDelete_comm_witness :
    ("1" : String) ≠ "2" ∧
      handleDocumentDelete "2"
          (handleDocumentDelete "1" { ListState.initial with documents := scenarioList }) =
        handleDocumentDelete "1"
          (handleDocumentDelete "2" { ListState.initial with documents := scenarioList }) :=
  ⟨by decide,
    handleDocumentDelete_comm { ListState.initial with documents := scenarioList } "1" "2"
      (by decide)⟩


/-! ## Loading (claims C9 and C10) -/

/-- A string that starts with a non-empty string is not empty. -/
theorem append_ne_empty (a b : String) (ha : a ≠ "") : a ++ b ≠ "" := by
  intro h
  apply ha
  have h' : (a ++ b).data = [] := congrArg String.data h
  rw [String.data_append] at h'
  exact String.ext (List.append_eq_nil.1 h').1

/-- The generic branch keeps both lists and stores a non-empty message. -/
theorem failedToLoad_documents (err : JsError) (st : ListState) :
    (failedToLoad err st).documents = st.documents ∧
      (failedToLoad err st).filteredDocuments = st.filteredDocuments ∧
      (failedToLoad err st).error ≠ "" :=
  ⟨rfl, rfl, append_ne_empty _ _ (by decide)⟩

/-- The catch block keeps both lists and stores a non-empty message on every path. -/
theorem loadDocumentsCatch_frame (err : JsError) (st : ListState) :
    (loadDocumentsCatch err st).documents = st.documents ∧
      (loadDocumentsCatch err st).filteredDocuments = st.filteredDocuments ∧
      (loadDocumentsCatch err st).error ≠ "" := by
  unfold loadDocumentsCatch
  split
  · exact failedToLoad_documents err st
  · split
    · split
      · split
        · refine ⟨rfl, rfl, ?_⟩
          show indexErrorMessage ≠ ""
          decide
        · exact failedToLoad_documents err st
      · exact failedToLoad_documents err st
    · exact failedToLoad_documents err st

/-- Claim C9. For every prior state and every failure of `getDocuments`, `loadDocuments`
(`DocumentList.js`) leaves the authoritative list and the display list as they were, with no
partial or empty overwrite, and records a non-empty error message; so does `fetchDocuments`
(`DocumentList.tsx`). -/
theorem loadDocuments_failure (st : ListState) (ts : TsListState) (err : JsError) :
    (loadDocuments (Except.error err) st).documents = st.documents ∧
      (loadDocuments (Except.error err) st).filteredDocuments = st.filteredDocuments ∧
      (loadDocuments (Except.error err) st).error ≠ "" ∧
      (fetchDocuments (Except.error err) ts).documents = ts.documents ∧
      (fetchDocuments (Except.error err) ts).error ≠ "" := by
  have h := loadDocumentsCatch_frame err
    { st with loading := true, error := "", indexRequired := false }
  refine ⟨h.1, h.2.1, h.2.2, rfl, ?_⟩
  show (if truthyOpt err.message then templateValue err.message
    else "Failed to fetch documents") ≠ ""
  cases hm : err.message with
  | none => simp [truthyOpt]
  | some m =>
    by_cases ht : truthy m = true
    · simp only [truthyOpt, ht, if_true, templateValue]
      exact (truthy_iff m).1 ht
    · simp [truthyOpt, ht]

/-- Claim C10. For every prior state and every list `D` returned by a successful
`getDocuments` call, after `loadDocuments` the authoritative list is `D` exactly, in the order
returned, whatever the prior state was, the error message is empty and the index-required flag
is false. -/
theorem loadDocuments_success (st : ListState) (D : List Document) :
    (loadDocuments (Except.ok D) st).documents = D ∧
      (loadDocuments (Except.ok D) st).error = "" ∧
      (loadDocuments (Except.ok D) st).indexRequired = false ∧
      (loadDocuments (Except.ok D) st).loading = false ∧
      ∀ st' : ListState,
        (loadDocuments (Except.ok D) st').documents = (loadDocuments (Except.ok D) st).documents :=
  ⟨rfl, rfl, rfl, rfl, fun _ => rfl⟩

/-! ## Empty states, display after a delete, index errors (claims C11 to C13) -/

/-- With a falsy search text the projection has as many records as the list. -/
theorem project_length_of_falsy (toLowerCase : String → String) (L : List Document) (s : String)
    (k : SortKey) (hs : truthy s = false) : (project toLowerCase L s k).length = L.length := by
  unfold project
  simp only [hs, Bool.false_eq_true, if_false, arraySort]
  exact List.length_insertionSort _ _

/-- The projection of the empty list is empty. -/
theorem project_nil (toLowerCase : String → String) (s : String) (k : SortKey) :
    project toLowerCase [] s k = [] := by
  unfold project
  cases truthy s <;> simp [arraySort]

/-- Claim C11, as the code has it.  With no load in progress, no error and the display list
settled on the projection: when the authoritative list is empty and the search text is empty
the container shows "No documents yet"; when the authoritative list is not empty and the
display list is empty it shows the no-matches message; and whenever the display list is empty
and the search text is not empty, an empty authoritative list included, it shows the no-matches
message. -/
theorem renderListContainer_empty (toLowerCase : String → String) (st : ListState)
    (hload : st.loading = false) (herr : st.error = "")
    (hsettled : st.filteredDocuments =
      project toLowerCase st.documents st.searchQuery st.sortBy) :
    (st.documents = [] → st.searchQuery = "" →
        renderListContainer st = ListView.noDocumentsYet) ∧
      (st.documents ≠ [] → st.filteredDocuments = [] →
        renderListContainer st = ListView.noMatches) ∧
      (st.filteredDocuments = [] → st.searchQuery ≠ "" →
        renderListContainer st = ListView.noMatches) := by
  have herr' : truthy st.error = false := by rw [herr]; rfl
  have hsearch : st.filteredDocuments = [] → st.searchQuery ≠ "" →
      renderListContainer st = ListView.noMatches := by
    intro hf hs
    have ht : truthy st.searchQuery = true := (truthy_iff _).2 hs
    simp [renderListContainer, hload, herr', hf, ht]
  refine ⟨?_, ?_, hsearch⟩
  · intro hdocs hs
    have hf : st.filteredDocuments = [] := by rw [hsettled, hdocs, project_nil]
    have ht : truthy st.searchQuery = false := by rw [hs]; rfl
    simp [renderListContainer, hload, herr', hf, ht]
  · intro hdocs hf
    apply hsearch hf
    intro hs
    apply hdocs
    have ht : truthy st.searchQuery = false := by rw [hs]; rfl
    have hlen := project_length_of_falsy toLowerCase st.documents st.searchQuery st.sortBy ht
    rw [← hsettled, hf] at hlen
    exact List.length_eq_zero.1 hlen.symm

/-- Claim C11 at the scenario list with the search text "zzz", which matches no record. -/
theorem renderListContainer_empty_witness :
    renderListContainer
        (filterSortEffect asciiLower
          { ListState.initial with
              loading := false, documents := scenarioList, searchQuery := "zzz" }) =
      ListView.noMatches :=
  (renderListContainer_empty asciiLower
    (filterSortEffect asciiLower
      { ListState.initial with loading := false, documents := scenarioList, searchQuery := "zzz" })
    rfl rfl rfl).2.1 (by decide) (by decide)

/-- Claim C11 as stated fails: with an empty authoritative list, no load in progress, no error
and the search text "x", the container shows the no-matches message, not "No documents yet". -/
theorem renderListContainer_empty_list_searching :
    emptyListSearching.loading = false ∧ emptyListSearching.error = "" ∧
      emptyListSearching.documents = [] ∧
      emptyListSearching.filteredDocuments =
        project asciiLower emptyListSearching.documents emptyListSearching.searchQuery
          emptyListSearching.sortBy ∧
      renderListContainer emptyListSearching = ListView.noMatches ∧
      renderListContainer emptyListSearching ≠ ListView.noDocumentsYet := by
  decide

/-- Claim C12. For every state, every id `d`, every search term `s` and every sort key `k`, the
display list computed from the authoritative list after the local delete of `d` holds no
record with id `d`. -/
theorem project_after_delete (toLowerCase : String → String) (st : ListState) (d s : String)
    (k : SortKey) (r : Document)
    (hr : r ∈ project toLowerCase (handleDocumentDelete d st).documents s k) : r.id ≠ d := by
  rw [project_eq_sort_filter, arraySort, List.mem_insertionSort, List.mem_filter] at hr
  have h := (List.mem_filter.1 hr.1).2
  simpa using h

/-- Claim C12 at the scenario list: after the delete of id 2 the display holds record 1, whose
id is not 2. -/
theorem project_after_delete_witness :
    doc1 ∈ project asciiLower
        (handleDocumentDelete "2"
          { ListState.initial with documents := scenarioList }).documents "" SortKey.size ∧
      doc1.id ≠ "2" :=
  ⟨by decide,
    project_after_delete asciiLower { ListState.initial with documents := scenarioList } "2" ""
      SortKey.size doc1 (by decide)⟩

/-- At the console origin followed by a non-empty run of characters outside the white space
class, which ends the text or is followed by white space, the pattern matches the origin and
the run. -/
theorem matchHere_origin_run (run post : List Char) (hrun : run ≠ [])
    (hns : ∀ c ∈ run, isWhiteSpace c = false)
    (hpost : post = [] ∨ ∃ c rest, post = c :: rest ∧ isWhiteSpace c = true) :
    matchHere (consoleOrigin ++ run ++ post) = some (consoleOrigin ++ run) := by
  have htake : (run ++ post).takeWhile (fun c => !isWhiteSpace c) = run := by
    induction run with
    | nil => exact absurd rfl hrun
    | cons c cs ih =>
      have hc : isWhiteSpace c = false := hns c (List.mem_cons_self c cs)
      by_cases hcs : cs = []
      · subst hcs
        rcases hpost with hp | ⟨p, rest, hp, hw⟩
        · simp [hp, hc]
        · simp [hp, hc, hw]
      · have := ih hcs (fun x hx => hns x (List.mem_cons_of_mem c hx))
        simp only [List.cons_append, List.takeWhile_cons, hc, Bool.not_false, if_true]
        rw [this]
  have hpre : consoleOrigin.isPrefixOf (consoleOrigin ++ run ++ post) = true := by
    rw [List.isPrefixOf_iff_prefix, List.append_assoc]
    exact List.prefix_append _ _
  unfold matchHere
  rw [if_pos hpre]
  have hdrop : (consoleOrigin ++ run ++ post).drop consoleOrigin.length = run ++ post := by
    rw [List.append_assoc, List.drop_left]
  simp only [hdrop, htake]
  cases run with
  | nil => exact absurd rfl hrun
  | cons c cs => simp

/-- Positions at which the console origin does not start are skipped by the search. -/
theorem matchFrom_skip (pre rest : List Char)
    (hfirst : ∀ i, i < pre.length → ¬ consoleOrigin <+: (pre ++ rest).drop i) :
    matchFrom (pre ++ rest) = matchFrom rest := by
  induction pre with
  | nil => rfl
  | cons c cs ih =>
    have h0 : matchHere (c :: (cs ++ rest)) = none := by
      unfold matchHere
      have : consoleOrigin.isPrefixOf (c :: (cs ++ rest)) = false := by
        rw [← Bool.not_eq_true, List.isPrefixOf_iff_prefix]
        exact hfirst 0 (Nat.succ_pos _)
      rw [this]
      rfl
    have hrest : ∀ i, i < cs.length → ¬ consoleOrigin <+: (cs ++ rest).drop i := by
      intro i hi
      exact hfirst (i + 1) (Nat.succ_lt_succ hi)
    rw [List.cons_append, matchFrom, h0]
    exact ih hrest

/-- The search returns the first console URL of a text. -/
theorem matchFrom_first_url (pre run post : List Char)
    (hfirst : ∀ i, i < pre.length →
      ¬ consoleOrigin <+: (pre ++ (consoleOrigin ++ run ++ post)).drop i)
    (hrun : run ≠ []) (hns : ∀ c ∈ run, isWhiteSpace c = false)
    (hpost : post = [] ∨ ∃ c rest, post = c :: rest ∧ isWhiteSpace c = true) :
    matchFrom (pre ++ (consoleOrigin ++ run ++ post)) = some (consoleOrigin ++ run) := by
  rw [matchFrom_skip pre _ hfirst]
  have hm := matchHere_origin_run run post hrun hns hpost
  have hne : ∃ c cs, consoleOrigin ++ run ++ post = c :: cs := by
    refine ⟨'h', "ttps://console.firebase.google.com".toList ++ run ++ post, ?_⟩
    rfl
  obtain ⟨c, cs, hcs⟩ := hne
  rw [hcs] at hm ⊢
  rw [matchFrom, hm]

/-- Claim C13, as the code has it.  When the load fails with a message that contains the text
"requires an index" and carries a remediation URL that starts with the Firestore console
origin `https://console.firebase.google.com`, runs on with at least one character up to the
next white space or the end of the message, and is the first occurrence of that origin in the
message, the state records the index-required kind and `indexUrl` is that URL unchanged. -/
theorem loadDocuments_index_url (st : ListState) (message : String) (pre run post : List Char)
    (hmsg : message.toList = pre ++ (consoleOrigin ++ run ++ post))
    (hincl : includes message "requires an index" = true)
    (hfirst : ∀ i, i < pre.length → ¬ consoleOrigin <+: message.toList.drop i)
    (hrun : run ≠ []) (hns : ∀ c ∈ run, isWhiteSpace c = false)
    (hpost : post = [] ∨ ∃ c rest, post = c :: rest ∧ isWhiteSpace c = true) :
    (loadDocuments (Except.error { message := some message }) st).indexRequired = true ∧
      (loadDocuments (Except.error { message := some message }) st).indexUrl =
        String.mk (consoleOrigin ++ run) ∧
      (loadDocuments (Except.error { message := some message }) st).error =
        indexErrorMessage := by
  have hurl : urlMatch message = some (String.mk (consoleOrigin ++ run)) := by
    unfold urlMatch
    rw [hmsg] at hfirst ⊢
    rw [matchFrom_first_url pre run post hfirst hrun hns hpost]
    rfl
  have htm : truthy message = true := by
    unfold truthy
    rw [hmsg]
    cases pre <;> rfl
  have htu : truthy (String.mk (consoleOrigin ++ run)) = true := rfl
  simp only [loadDocuments, loadDocumentsCatch, htm, hincl, hurl, htu, Bool.and_self, if_true]
  exact ⟨trivial, trivial, trivial⟩

/-- Claim C13 at a failure worded as the Firestore backend words it. -/
theorem loadDocuments_index_url_witness :
    (loadDocuments (Except.error firebaseIndexFailure) ListState.initial).indexRequired = true ∧
      (loadDocuments (Except.error firebaseIndexFailure) ListState.initial).indexUrl =
        "https://console.firebase.google.com/v1/r/project/p/firestore/indexes?create_composite=Cg" :=
  ⟨(loadDocuments_index_url ListState.initial
      ("The query requires an index. You can create it here: " ++
        "https://console.firebase.google.com/v1/r/project/p/firestore/indexes?create_composite=Cg")
      "The query requires an index. You can create it here: ".toList
      "/v1/r/project/p/firestore/indexes?create_composite=Cg".toList []
      (by decide) (by decide) (by decide) (by decide) (by decide) (Or.inl rfl)).1,
    (loadDocuments_index_url ListState.initial
      ("The query requires an index. You can create it here: " ++
        "https://console.firebase.google.com/v1/r/project/p/firestore/indexes?create_composite=Cg")
      "The query requires an index. You can create it here: ".toList
      "/v1/r/project/p/firestore/indexes?create_composite=Cg".toList []
      (by decide) (by decide) (by decide) (by decide) (by decide) (Or.inl rfl)).2.1⟩

/-- Claim C13 as stated fails at the specification's scenario: a failure whose message says
that the query requires an index and carries the URL `https://console.example/create-index` is
recorded as a generic failure, `indexRequired` stays false and `indexUrl` is not that URL. -/
theorem loadDocuments_example_url_not_recorded :
    (loadDocuments (Except.error exampleIndexFailure) ListState.initial).indexRequired = false ∧
      (loadDocuments (Except.error exampleIndexFailure) ListState.initial).indexUrl ≠
        "https://console.example/create-index" ∧
      (loadDocuments (Except.error exampleIndexFailure) ListState.initial).error =
        "Failed to load documents: The query requires an index. You can create it here: " ++
          "https://console.example/create-index" := by
  decide

/-! ## Missing dates, copies and failures (claims C14, C15 and C19) -/

/-- Two different members of a list stand in one order or the other. -/
theorem pair_sublist_or {α : Type} (a b : α) (l : List α) (ha : a ∈ l) (hb : b ∈ l)
    (hab : a ≠ b) : List.Sublist [a, b] l ∨ List.Sublist [b, a] l := by
  induction l with
  | nil => exact absurd ha (List.not_mem_nil a)
  | cons x xs ih =>
    rcases List.mem_cons.1 ha with hax | hax
    · rcases List.mem_cons.1 hb with hbx | hbx
      · exact absurd (hax.trans hbx.symm) hab
      · left
        rw [hax]
        exact List.Sublist.cons₂ x (List.singleton_sublist.2 hbx)
    · rcases List.mem_cons.1 hb with hbx | hbx
      · right
        rw [hbx]
        exact List.Sublist.cons₂ x (List.singleton_sublist.2 hax)
      · rcases ih hax hbx with h | h
        · exact Or.inl (List.Sublist.cons x h)
        · exact Or.inr (List.Sublist.cons x h)

/-- Two displayed records that tie keep the relative order they have in the list. -/
theorem project_tie_order (toLowerCase : String → String) (L : List Document) (s : String)
    (k : SortKey) (a b : Document) (ha : a ∈ project toLowerCase L s k)
    (hb : b ∈ project toLowerCase L s k) (hab : compareDocs k a b = 0) :
    List.Sublist [a, b] (project toLowerCase L s k) ↔ List.Sublist [a, b] L := by
  rw [project_eq_sort_filter] at ha hb ⊢
  have hself : compareDocs k a a = 0 := by
    rw [compareDocs_eq_zero_iff] at hab ⊢
    exact ⟨keyGe_trans k a b a hab.1 hab.2, keyGe_trans k a b a hab.1 hab.2⟩
  constructor
  · intro h
    have hties : [a, b].filter (fun x => decide (compareDocs k a x = 0)) = [a, b] := by
      simp [hself, hab]
    have hsub := h.filter (fun x => decide (compareDocs k a x = 0))
    rw [arraySort_filter_tie, hties] at hsub
    exact (hsub.trans (List.filter_sublist _)).trans (List.filter_sublist _)
  · intro h
    rw [arraySort, List.mem_insertionSort, List.mem_filter] at ha hb
    have hkept : [a, b].filter (kept toLowerCase s) = [a, b] := by
      simp [ha.2, hb.2]
    have hsub := h.filter (kept toLowerCase s)
    rw [hkept] at hsub
    exact List.pair_sublist_insertionSort (le_of_eq hab) hsub

/-- A record placed before another one in the display list has a key at least as large. -/
theorem project_pair_keyGe (toLowerCase : String → String) (L : List Document) (s : String)
    (k : SortKey) (a b : Document) (h : List.Sublist [a, b] (project toLowerCase L s k)) :
    KeyGe k a b := by
  have hsorted : List.Pairwise (KeyGe k) (project toLowerCase L s k) := by
    rw [project_eq_sort_filter]
    exact arraySort_sorted k _
  have := hsorted.sublist h
  exact (List.pairwise_pair.1 this)

/-- Claim C14. Under the sort key `createdAt` a displayed record `a` whose `createdAt` is
missing is compared as the epoch instant 0: the comparator gives what it gives for the same
record with the instant 0; a displayed record `b` whose instant is positive stands before `a`
and never after it; and with a displayed record `b` whose instant is exactly 0 or also missing
the comparator returns 0 and the two keep, in either order, the relative order they have in
the authoritative list. -/
theorem project_missing_createdAt (toLowerCase : String → String) (L : List Document)
    (s : String) (a b : Document)
    (ha : a ∈ project toLowerCase L s SortKey.createdAt)
    (hb : b ∈ project toLowerCase L s SortKey.createdAt) (hmiss : a.createdAt = none) :
    compareDocs SortKey.createdAt a b =
        compareDocs SortKey.createdAt { a with createdAt := some 0 } b ∧
      (∀ t : Int, 0 < t → b.createdAt = some t →
        List.Sublist [b, a] (project toLowerCase L s SortKey.createdAt) ∧
          ¬ List.Sublist [a, b] (project toLowerCase L s SortKey.createdAt)) ∧
      ((b.createdAt = none ∨ b.createdAt = some 0) →
        compareDocs SortKey.createdAt a b = 0 ∧
          (List.Sublist [a, b] (project toLowerCase L s SortKey.createdAt) ↔
            List.Sublist [a, b] L) ∧
          (List.Sublist [b, a] (project toLowerCase L s SortKey.createdAt) ↔
            List.Sublist [b, a] L)) := by
  refine ⟨?_, ?_, ?_⟩
  · simp [compareDocs, hmiss, dateValue]
  · intro t ht hbt
    have hnot : ¬ List.Sublist [a, b] (project toLowerCase L s SortKey.createdAt) := by
      intro h
      have hge := project_pair_keyGe toLowerCase L s SortKey.createdAt a b h
      simp only [KeyGe, hmiss, hbt, dateValue] at hge
      omega
    have hne : b ≠ a := by
      intro h
      rw [h, hmiss] at hbt
      exact Option.noConfusion hbt
    rcases pair_sublist_or b a _ hb ha hne with h | h
    · exact ⟨h, hnot⟩
    · exact absurd h hnot
  · intro hb0
    have htie : compareDocs SortKey.createdAt a b = 0 := by
      rcases hb0 with h | h <;> simp [compareDocs, hmiss, h, dateValue, descending]
    have htie' : compareDocs SortKey.createdAt b a = 0 := by
      rcases hb0 with h | h <;> simp [compareDocs, hmiss, h, dateValue, descending]
    exact ⟨htie, project_tie_order toLowerCase L s SortKey.createdAt a b ha hb htie,
      project_tie_order toLowerCase L s SortKey.createdAt b a hb ha htie'⟩

/-- Claim C14 at the list `[undated record, record 1]`: record 1, created at the instant 100,
is displayed before the record without a date. -/
theorem project_missing_createdAt_witness :
    docUndated ∈ project asciiLower [docUndated, doc1] "" SortKey.createdAt ∧
      doc1 ∈ project asciiLower [docUndated, doc1] "" SortKey.createdAt ∧
      docUndated.createdAt = none ∧
      List.Sublist [doc1, docUndated]
        (project asciiLower [docUndated, doc1] "" SortKey.createdAt) :=
  ⟨by decide, by decide, rfl,
    ((project_missing_createdAt asciiLower [docUndated, doc1] "" docUndated doc1 (by decide)
      (by decide) rfl).2.1 100 (by decide) rfl).1⟩

/-- Reading a reference that existed before an allocation gives what it gave. -/
theorem Heap.read_alloc_old (h : Heap) (content : List Document) (ref : Nat)
    (href : ref < h.arrays.length) : (h.alloc content).1.read ref = h.read ref := by
  simp [Heap.read, Heap.alloc, List.getD_eq_getElem?_getD, List.getElem?_append_left href]

/-- Reading the reference an allocation returns gives the allocated content. -/
theorem Heap.read_alloc_new (h : Heap) (content : List Document) :
    (h.alloc content).1.read (h.alloc content).2 = content := by
  simp [Heap.read, Heap.alloc, List.getD_eq_getElem?_getD]

/-- Reading a reference after a write to another reference gives what it gave. -/
theorem Heap.read_write_other (h : Heap) (content : List Document) (ref other : Nat)
    (hne : ref ≠ other) : (h.write ref content).read other = h.read other := by
  simp [Heap.read, Heap.write, List.getD_eq_getElem?_getD, List.getElem?_set_ne hne]

/-- Reading a valid reference after a write to it gives the written content. -/
theorem Heap.read_write_same (h : Heap) (content : List Document) (ref : Nat)
    (href : ref < h.arrays.length) : (h.write ref content).read ref = content := by
  simp [Heap.read, Heap.write, List.getD_eq_getElem?_getD, List.getElem?_set_self, href]

/-- Claim C15. Copy-on-derive: for every heap, every valid reference `documents` to the
authoritative list, every `s` and `k`, running the effect (copy, filter, in-place sort of the
working copy) leaves the array behind `documents` unchanged, with the same records in the same
order, and every other array that existed; the array it hands to `setFilteredDocuments` is a
new one, different from `documents`, and holds the projection. -/
theorem filterSortEffectOnHeap_frame (toLowerCase : String → String) (h : Heap)
    (documents : Nat) (s : String) (k : SortKey) (hvalid : documents < h.arrays.length) :
    (filterSortEffectOnHeap toLowerCase h documents s k).1.read documents = h.read documents ∧
      (filterSortEffectOnHeap toLowerCase h documents s k).2 ≠ documents ∧
      (∀ ref, ref < h.arrays.length →
        (filterSortEffectOnHeap toLowerCase h documents s k).1.read ref = h.read ref) ∧
      (filterSortEffectOnHeap toLowerCase h documents s k).1.read
          (filterSortEffectOnHeap toLowerCase h documents s k).2 =
        project toLowerCase (h.read documents) s k := by
  have hold : ∀ ref, ref < h.arrays.length →
      (filterSortEffectOnHeap toLowerCase h documents s k).1.read ref = h.read ref := by
    intro ref href
    unfold filterSortEffectOnHeap
    cases hs : truthy s
    · simp only [Bool.false_eq_true, if_false]
      rw [Heap.read_write_other _ _ _ _ (by simp [Heap.alloc]; omega)]
      exact Heap.read_alloc_old h _ ref href
    · simp only [if_true]
      rw [Heap.read_write_other _ _ _ _ (by simp [Heap.alloc]; omega)]
      rw [Heap.read_alloc_old _ _ ref (by simp [Heap.alloc]; omega)]
      exact Heap.read_alloc_old h _ ref href
  refine ⟨hold documents hvalid, ?_, hold, ?_⟩
  · unfold filterSortEffectOnHeap
    cases hs : truthy s <;> simp [Heap.alloc] <;> omega
  · unfold filterSortEffectOnHeap project
    cases hs : truthy s
    · simp only [Bool.false_eq_true, if_false]
      rw [Heap.read_write_same _ _ _ (by simp [Heap.alloc]), Heap.read_alloc_new]
    · simp only [if_true]
      rw [Heap.read_write_same _ _ _ (by simp [Heap.alloc]), Heap.read_alloc_new,
        Heap.read_alloc_new]

/-- Claim C15 on a heap that holds the scenario list at reference 0. -/
theorem filterSortEffectOnHeap_frame_witness :
    (filterSortEffectOnHeap asciiLower { arrays := [scenarioList] } 0 "" SortKey.size).1.read 0 =
        scenarioList ∧
      (filterSortEffectOnHeap asciiLower { arrays := [scenarioList] } 0 "" SortKey.size).1.read
          (filterSortEffectOnHeap asciiLower { arrays := [scenarioList] } 0 "" SortKey.size).2 =
        [doc2, doc1] :=
  ⟨(filterSortEffectOnHeap_frame asciiLower { arrays := [scenarioList] } 0 "" SortKey.size
      (by decide)).1,
    by decide⟩

/-! ## The delete flows (claim C16) -/

/-- Claim C16. No optimistic removal.  In the card's delete-confirm flow, when the remote
delete fails `onDelete` is not invoked and the authoritative list stays as it was; `onDelete`
is invoked only when the remote delete succeeded, and then the list of the enclosing
`DocumentList` loses the record's id.  In the viewer's flow, when the blob delete fails, or
the blob delete succeeds and the metadata delete fails, `onDelete` is not invoked, and
`onDelete` is invoked only when both remote deletes succeeded; after a failed blob delete the
metadata delete is not even issued. -/
theorem no_optimistic_removal (document : Document) (cs : CardState) (st : ListState)
    (err : JsError) (hasOnDelete confirmed loading : Bool) :
    (handleDeleteConfirm (Except.error err) document hasOnDelete cs).2 = [] ∧
      (confirmDeleteInList (Except.error err) document cs st).2 = st ∧
      (∀ outcome, (handleDeleteConfirm outcome document hasOnDelete cs).2 ≠ [] →
        ∃ v, outcome = Except.ok v) ∧
      (∀ v, (confirmDeleteInList (Except.ok v) document cs st).2 =
        handleDocumentDelete document.id st) ∧
      (∀ metadataOutcome,
        (handleDeleteClick confirmed (Except.error err) metadataOutcome document hasOnDelete
          loading).onDeleteCalls = [] ∧
        RemoteCall.deleteDocument document.id ∉
          (handleDeleteClick confirmed (Except.error err) metadataOutcome document hasOnDelete
            loading).remoteCalls) ∧
      (∀ v,
        (handleDeleteClick confirmed (Except.ok v) (Except.error err) document hasOnDelete
          loading).onDeleteCalls = []) ∧
      (∀ blobOutcome metadataOutcome,
        (handleDeleteClick confirmed blobOutcome metadataOutcome document hasOnDelete
          loading).onDeleteCalls ≠ [] →
        (∃ v, blobOutcome = Except.ok v) ∧ (∃ v, metadataOutcome = Except.ok v)) := by
  refine ⟨rfl, rfl, ?_, fun _ => rfl, ?_, ?_, ?_⟩
  · intro outcome h
    cases outcome with
    | ok v => exact ⟨v, rfl⟩
    | error e => exact absurd rfl h
  · intro metadataOutcome
    cases confirmed <;> simp [handleDeleteClick]
  · intro v
    cases confirmed <;> simp [handleDeleteClick]
  · intro blobOutcome metadataOutcome h
    cases confirmed with
    | false => simp [handleDeleteClick] at h
    | true =>
      cases blobOutcome with
      | error e => simp [handleDeleteClick] at h
      | ok v =>
        cases metadataOutcome with
        | error e => simp [handleDeleteClick] at h
        | ok w => exact ⟨⟨v, rfl⟩, ⟨w, rfl⟩⟩

/-! ## Failures of the load are caught (claim C19) -/

/-- Claim C19. Every failure raised by `getDocuments` is caught inside `loadDocuments` and
turned into recorded error state: for every thrown error, `loadDocuments` yields a state
(the function is total, no fault goes further), that state has `loading = false`, and it
records either the index-required kind, with the message of line 103 and the URL the pattern
extracted from the failure message, or the generic kind, with `indexRequired` false and the
message "Failed to load documents: " followed by the failure message. -/
theorem loadDocuments_catches (st : ListState) (err : JsError) :
    (loadDocuments (Except.error err) st).loading = false ∧
      (((loadDocuments (Except.error err) st).indexRequired = true ∧
          (loadDocuments (Except.error err) st).error = indexErrorMessage ∧
          ∃ message, err.message = some message ∧
            includes message "requires an index" = true ∧
            urlMatch message = some (loadDocuments (Except.error err) st).indexUrl) ∨
        ((loadDocuments (Except.error err) st).indexRequired = false ∧
          (loadDocuments (Except.error err) st).indexUrl = st.indexUrl ∧
          (loadDocuments (Except.error err) st).error =
            "Failed to load documents: " ++ templateValue err.message)) := by
  refine ⟨rfl, ?_⟩
  cases hm : err.message with
  | none =>
    right
    simp [loadDocuments, loadDocumentsCatch, failedToLoad, hm]
  | some message =>
    by_cases hcond : (truthy message && includes message "requires an index") = true
    · cases hu : urlMatch message with
      | none =>
        right
        simp [loadDocuments, loadDocumentsCatch, failedToLoad, hm, hcond, hu]
      | some url =>
        by_cases htu : truthy url = true
        · left
          have hincl : includes message "requires an index" = true :=
            (Bool.and_eq_true _ _ ▸ hcond).2
          simp only [loadDocuments, loadDocumentsCatch, hm, hcond, hu, htu, if_true]
          exact ⟨trivial, trivial, message, rfl, hincl, hu⟩
        · right
          simp [loadDocuments, loadDocumentsCatch, failedToLoad, hm, hcond, hu, htu]
    · right
      simp [loadDocuments, loadDocumentsCatch, failedToLoad, hm, hcond]

/-! ## Owner scoping and the missing session (claims C17 and C18) -/

/-- The store answers a query with the stored records of the owner it names. -/
theorem mem_answerQuery (store : List StoredDoc) (q : StoreQuery) (s : StoredDoc) :
    s ∈ answerQuery store q ↔ s ∈ store ∧ s.ownerId = q.ownerId := by
  unfold answerQuery
  rw [List.mem_insertionSort, List.mem_filter]
  simp

/-- The query carries the uid of the current user. -/
theorem buildQuery_ownerId (uid : String) (filters : Filters) :
    (buildQuery uid filters).ownerId = uid := by
  unfold buildQuery
  cases filters.sortBy <;> rfl

/-- The filters only take documents away. -/
theorem applyFilters_subset (toLowerCase : String → String) (filters : Filters)
    (documents : List Document) (d : Document)
    (hd : d ∈ applyFilters toLowerCase filters documents) : d ∈ documents := by
  have hft : ∀ x, x ∈ applyFileType filters documents → x ∈ documents := by
    intro x hx
    unfold applyFileType at hx
    split at hx
    · split at hx
      · exact (List.mem_filter.1 hx).1
      · exact hx
    · exact hx
  unfold applyFilters at hd
  split at hd
  · split at hd
    · exact (List.mem_filter.1 hd).1
    · exact hft d hd
  · exact hft d hd

/-- Claim C17. Owner scoping: for every content of the store, every signed-in user `uid` and
every filters, every record `getDocuments` returns is the image of a stored record owned by
`uid`, so its `ownerId` is `uid`, and no record of another owner is returned; when the store
answers, the call returns; and with no filters every stored record owned by `uid` is
returned. -/
theorem getDocuments_owner_scoped (toLowerCase : String → String) (store : List StoredDoc)
    (uid : String) (fault : Option JsError) (filters : Filters) (docs : List Document)
    (hok : getDocuments toLowerCase (some uid) store fault filters = Except.ok docs) :
    (∀ d ∈ docs, d.ownerId = uid ∧ ∃ s ∈ store, s.ownerId = uid ∧ d = toDocument s) ∧
      (∀ s ∈ store, s.ownerId ≠ uid → toDocument s ∉ docs) ∧
      (∃ all, getDocuments toLowerCase (some uid) store none Filters.none = Except.ok all ∧
        (∀ s ∈ store, s.ownerId = uid → toDocument s ∈ all) ∧
        (∀ d ∈ all, d.ownerId = uid)) := by
  have hscoped : ∀ (fl : Filters) (d : Document),
      d ∈ applyFilters toLowerCase fl ((answerQuery store (buildQuery uid fl)).map toDocument) →
      d.ownerId = uid ∧ ∃ s ∈ store, s.ownerId = uid ∧ d = toDocument s := by
    intro fl d hd
    have hmem := applyFilters_subset toLowerCase fl _ d hd
    obtain ⟨s, hs, hsd⟩ := List.mem_map.1 hmem
    rw [mem_answerQuery, buildQuery_ownerId] at hs
    refine ⟨?_, s, hs.1, hs.2, hsd.symm⟩
    rw [← hsd]
    exact hs.2
  have hdocs : fault = none ∧ docs = applyFilters toLowerCase filters
      ((answerQuery store (buildQuery uid filters)).map toDocument) := by
    cases fault with
    | some err => simp [getDocuments, getDocumentsRun] at hok
    | none =>
      simp only [getDocuments, getDocumentsRun, Except.ok.injEq] at hok
      exact ⟨rfl, hok.symm⟩
  have hall : ∀ d ∈ docs, d.ownerId = uid ∧ ∃ s ∈ store, s.ownerId = uid ∧ d = toDocument s := by
    intro d hd
    rw [hdocs.2] at hd
    exact hscoped filters d hd
  refine ⟨hall, ?_, ?_⟩
  · intro s _ hne hmem
    exact hne (hall _ hmem).1
  · refine ⟨(answerQuery store (buildQuery uid Filters.none)).map toDocument, rfl, ?_, ?_⟩
    · intro s hs hown
      apply List.mem_map_of_mem
      rw [mem_answerQuery, buildQuery_ownerId]
      exact ⟨hs, hown⟩
    · intro d hd
      exact (hscoped Filters.none d hd).1

/-- Claim C17 at a store with records of two users: the call of the user "u" returns the two
records of "u", the newest first. -/
theorem getDocuments_owner_scoped_witness :
    getDocuments asciiLower (some "u") exampleStore none Filters.none =
        Except.ok [doc2b, doc1b] ∧
      doc2b.ownerId = "u" :=
  ⟨rfl,
    ((getDocuments_owner_scoped asciiLower exampleStore "u" none Filters.none [doc2b, doc1b]
      rfl).1 doc2b (by decide)).1⟩

/-- Claim C18. With no user session `getDocuments` fails with the error "User must be logged
in to get documents" and issues no query to the store, whatever the store holds; a load
attempted then publishes no list: `loadDocuments` and `fetchDocuments` leave the lists as they
were and record the failure. -/
theorem getDocuments_no_session (toLowerCase : String → String) (store : List StoredDoc)
    (fault : Option JsError) (filters : Filters) (st : ListState) (ts : TsListState) :
    (getDocumentsRun toLowerCase none store fault filters).queries = [] ∧
      getDocuments toLowerCase none store fault filters =
        Except.error { message := some "User must be logged in to get documents" } ∧
      (loadDocuments (getDocuments toLowerCase none store fault filters) st).documents =
        st.documents ∧
      (loadDocuments (getDocuments toLowerCase none store fault filters) st).filteredDocuments =
        st.filteredDocuments ∧
      (loadDocuments (getDocuments toLowerCase none store fault filters) st).error =
        "Failed to load documents: User must be logged in to get documents" ∧
      (fetchDocuments (getDocuments toLowerCase none store fault filters) ts).documents =
        ts.documents ∧
      (fetchDocuments (getDocuments toLowerCase none store fault filters) ts).error =
        "User must be logged in to get documents" := by
  have hinc : includes "User must be logged in to get documents" "requires an index" = false := by
    decide
  refine ⟨rfl, rfl, ?_, ?_, ?_, rfl, ?_⟩
  · simp [getDocuments, getDocumentsRun, loadDocuments, loadDocumentsCatch, failedToLoad, hinc]
  · simp [getDocuments, getDocumentsRun, loadDocuments, loadDocumentsCatch, failedToLoad, hinc]
  · simp only [getDocuments, getDocumentsRun, loadDocuments, loadDocumentsCatch, failedToLoad,
      hinc, Bool.and_false, Bool.false_eq_true, if_false, templateValue]
    decide
  · simp only [getDocuments, getDocumentsRun, fetchDocuments, truthyOpt, templateValue]
    decide

/-! ## The upload-complete signal (claim C20) -/

/-- Claim C20. The upload-complete signal never inserts its payload into the authoritative
list.  The handler works on the state of `AppContent` alone, whatever the payload: it sets
`uploadSuccess` and a timer of 3000 ms and changes nothing else.  When no upload was signalled
before, the reload trigger passed to the list goes from 0 to the value of `Date.now()`, which
is not 0, and the reload effect of the list then runs a full `loadDocuments`: after a
successful load the authoritative list is the list the store returned, after a failed one it
is the list as it was. -/
theorem upload_signal_reloads (documentData other : UploadPayload) (app : AppState)
    (earlier now : Nat) (outcome : Except JsError (List Document)) (st : ListState)
    (hidle : app.uploadSuccess = false) (hnow : now ≠ 0) :
    handleDocumentUploadComplete documentData app = ({ app with uploadSuccess := true }, [3000]) ∧
      handleDocumentUploadComplete documentData app = handleDocumentUploadComplete other app ∧
      reloadTrigger app earlier = 0 ∧
      reloadTrigger (handleDocumentUploadComplete documentData app).1 now = now ∧
      reloadEffect (reloadTrigger app earlier)
          (reloadTrigger (handleDocumentUploadComplete documentData app).1 now) outcome st =
        loadDocuments outcome st ∧
      (∀ D, outcome = Except.ok D →
        (reloadEffect (reloadTrigger app earlier)
          (reloadTrigger (handleDocumentUploadComplete documentData app).1 now) outcome
          st).documents = D) ∧
      (∀ err, outcome = Except.error err →
        (reloadEffect (reloadTrigger app earlier)
          (reloadTrigger (handleDocumentUploadComplete documentData app).1 now) outcome
          st).documents = st.documents) := by
  have h0 : reloadTrigger app earlier = 0 := by simp [reloadTrigger, hidle]
  have h1 : reloadTrigger (handleDocumentUploadComplete documentData app).1 now = now := by
    simp [reloadTrigger, handleDocumentUploadComplete]
  have hrun : reloadEffect (reloadTrigger app earlier)
      (reloadTrigger (handleDocumentUploadComplete documentData app).1 now) outcome st =
        loadDocuments outcome st := by
    rw [h0, h1, reloadEffect, if_neg (Ne.symm hnow)]
  refine ⟨rfl, rfl, h0, h1, hrun, ?_, ?_⟩
  · intro D hD
    rw [hrun, hD]
    rfl
  · intro err herr
    rw [hrun, herr]
    exact (loadDocumentsCatch_frame err _).1

/-- Claim C20 at an idle application and the scenario list: the signal for a new file makes
the list reload, and the list becomes the one the store returned, here the scenario list. -/
theorem upload_signal_reloads_witness :
    idleApp.uploadSuccess = false ∧ (1700000000000 : Nat) ≠ 0 ∧
      (reloadEffect (reloadTrigger idleApp 1699999990000)
          (reloadTrigger
            (handleDocumentUploadComplete
              { id := "7", name := "New.pdf", type := "application/pdf", size := 1, url := "b7",
                description := "" } idleApp).1 1700000000000)
          (Except.ok scenarioList) ListState.initial).documents = scenarioList :=
  ⟨rfl, by decide,
    (upload_signal_reloads
      { id := "7", name := "New.pdf", type := "application/pdf", size := 1, url := "b7",
        description := "" }
      { id := "8", name := "Else.pdf", type := "application/pdf", size := 2, url := "b8",
        description := "" }
      idleApp 1699999990000 1700000000000 (Except.ok scenarioList) ListState.initial rfl
      (by decide)).2.2.2.2.2.1 scenarioList rfl⟩

/-! ## Deleting on the backend (claims C21 to C23) -/

/-- For a signed-in user, a served call and an existing object, `deleteFile` resolves, removes
that object and nothing else. -/
theorem deleteFile_existing (b : Backend) (faults : Faults) (uid fileUrl : String)
    (huser : b.currentUser = some uid) (hfault : faults.deleteObject = none)
    (hblob : fileUrl ∈ b.blobs) :
    deleteFile b faults fileUrl =
      { result := Except.ok true,
        backend := { b with blobs := b.blobs.filter (fun u => u != fileUrl) },
        ops := [StoreOp.deleteObject fileUrl] } := by
  simp [deleteFile, deleteObject, huser, hfault, hblob]

/-- For an owned record with an existing blob and served calls, the deleting part of
`deleteDocument` removes the blob, then the record. -/
theorem deleteOwned_served (b : Backend) (faults : Faults) (uid id : String) (data : StoredDoc)
    (huser : b.currentUser = some uid) (hobj : faults.deleteObject = none)
    (hdoc : faults.deleteDoc = none) (hurl : truthy data.url = true)
    (hblob : data.url ∈ b.blobs) :
    deleteOwned b faults id data =
      { result := Except.ok true,
        backend :=
          { b with
              blobs := b.blobs.filter (fun u => u != data.url),
              documents := b.documents.filter (fun d => d.id != id) },
        ops := [StoreOp.getDoc id, StoreOp.deleteObject data.url, StoreOp.deleteDoc id] } := by
  unfold deleteOwned
  simp only [hurl, if_true]
  rw [deleteFile_existing b faults uid data.url huser hobj hblob]
  simp [hdoc]

/-- For a signed-in user and a missing object, `deleteFile` rejects and changes nothing. -/
theorem deleteFile_missing (b : Backend) (faults : Faults) (uid fileUrl : String)
    (huser : b.currentUser = some uid) (hblob : fileUrl ∉ b.blobs) :
    (∃ err, (deleteFile b faults fileUrl).result = Except.error err) ∧
      (deleteFile b faults fileUrl).backend = b := by
  cases hf : faults.deleteObject with
  | none => simp [deleteFile, deleteObject, huser, hf, hblob]
  | some err => simp [deleteFile, deleteObject, huser, hf]

/-- A rejected `deleteFile` changes nothing. -/
theorem deleteFile_error_backend (b : Backend) (faults : Faults) (fileUrl : String)
    (err : JsError) (h : (deleteFile b faults fileUrl).result = Except.error err) :
    (deleteFile b faults fileUrl).backend = b := by
  unfold deleteFile at h ⊢
  cases hu : b.currentUser with
  | none => rfl
  | some uid =>
    simp only [hu] at h ⊢
    cases hd : deleteObject b faults.deleteObject fileUrl with
    | error e => rfl
    | ok b' => simp [hd] at h

/-- The function `deleteFile` never touches the metadata store. -/
theorem deleteFile_documents (b : Backend) (faults : Faults) (fileUrl : String) :
    (deleteFile b faults fileUrl).backend.documents = b.documents := by
  unfold deleteFile
  cases hu : b.currentUser with
  | none => rfl
  | some uid =>
    simp only []
    cases hd : deleteObject b faults.deleteObject fileUrl with
    | error e => rfl
    | ok b' =>
      simp only []
      unfold deleteObject at hd
      cases hf : faults.deleteObject with
      | some e => simp [hf] at hd
      | none =>
        simp only [hf] at hd
        split at hd
        · injection hd with hd
          rw [← hd]
        · exact Except.noConfusion hd

/-- Claim C21. For a signed-in user `uid` who owns the existing record `r` of id `id`, whose
`url` is the URL of an existing blob, when the backend serves every call `deleteDocument id`
resolves; it reads the record, deletes the blob at `r.url` first and then the metadata record;
afterwards no record has the id `id` and no blob has the URL `r.url`, and every other record
and every other blob is there as before, in the same order. -/
theorem deleteDocument_removes_both (b : Backend) (uid id : String) (r : StoredDoc)
    (huser : b.currentUser = some uid)
    (hfound : b.documents.find? (fun d => d.id == id) = some r) (howner : r.ownerId = uid)
    (hurl : truthy r.url = true) (hblob : r.url ∈ b.blobs) :
    (deleteDocument b Faults.none id).result = Except.ok true ∧
      (deleteDocument b Faults.none id).ops =
        [StoreOp.getDoc id, StoreOp.deleteObject r.url, StoreOp.deleteDoc id] ∧
      (∀ s, s ∈ (deleteDocument b Faults.none id).backend.documents ↔
        s ∈ b.documents ∧ s.id ≠ id) ∧
      (∀ u, u ∈ (deleteDocument b Faults.none id).backend.blobs ↔ u ∈ b.blobs ∧ u ≠ r.url) ∧
      List.Sublist (deleteDocument b Faults.none id).backend.documents b.documents ∧
      List.Sublist (deleteDocument b Faults.none id).backend.blobs b.blobs ∧
      (deleteDocument b Faults.none id).backend.currentUser = b.currentUser := by
  have hrun : deleteDocument b Faults.none id =
      { result := Except.ok true,
        backend :=
          { b with
              blobs := b.blobs.filter (fun u => u != r.url),
              documents := b.documents.filter (fun d => d.id != id) },
        ops := [StoreOp.getDoc id, StoreOp.deleteObject r.url, StoreOp.deleteDoc id] } := by
    have hne : (r.ownerId != uid) = false := by simp [howner]
    have hget : Faults.none.getDoc = none := rfl
    unfold deleteDocument
    simp only [huser, hget, hfound, hne, Bool.false_eq_true, if_false]
    rw [deleteOwned_served b Faults.none uid id r huser rfl rfl hurl hblob]
    simp [huser]
  rw [hrun]
  refine ⟨rfl, rfl, ?_, ?_, List.filter_sublist _, List.filter_sublist _, rfl⟩
  · intro s
    simp [List.mem_filter]
  · intro u
    simp [List.mem_filter]

/-- Claim C21 at the example backend: the user "u" deletes the record 2. -/
theorem deleteDocument_removes_both_witness :
    (deleteDocument exampleBackend Faults.none "2").backend.blobs = ["b1", "b9"] ∧
      (deleteDocument exampleBackend Faults.none "2").ops =
        [StoreOp.getDoc "2", StoreOp.deleteObject "b2", StoreOp.deleteDoc "2"] ∧
      (deleteDocument exampleBackend Faults.none "2").result = Except.ok true :=
  ⟨by decide, by decide,
    (deleteDocument_removes_both exampleBackend "u" "2"
      { id := "2", name := "Photo.png", type := "image/png", size := 4096, url := "b2",
        description := none, createdAt := 200, updatedAt := 200, ownerId := "u" }
      rfl (by decide) rfl (by decide) (by decide)).1⟩

/-- A rejected `deleteDocument` leaves the metadata store as it was. -/
theorem deleteDocument_error_documents (b : Backend) (faults : Faults) (id : String)
    (err : JsError) (h : (deleteDocument b faults id).result = Except.error err) :
    (deleteDocument b faults id).backend.documents = b.documents := by
  unfold deleteDocument at h ⊢
  cases hu : b.currentUser with
  | none => rfl
  | some uid =>
    simp only [hu] at h ⊢
    cases hg : faults.getDoc with
    | some e => rfl
    | none =>
      simp only [hg] at h ⊢
      cases hf : b.documents.find? (fun d => d.id == id) with
      | none => rfl
      | some data =>
        simp only [hf] at h ⊢
        by_cases ho : (data.ownerId != uid) = true
        · simp only [ho, if_true]
        · simp only [ho, Bool.false_eq_true, if_false] at h ⊢
          unfold deleteOwned at h ⊢
          by_cases ht : truthy data.url = true
          · simp only [ht, if_true] at h ⊢
            cases hr : (deleteFile b faults data.url).result with
            | error e =>
              simp only [hr]
              exact deleteFile_documents b faults data.url
            | ok v =>
              simp only [hr] at h ⊢
              cases hd : faults.deleteDoc with
              | some e =>
                simp only [hd]
                exact deleteFile_documents b faults data.url
              | none => simp [hd] at h
          · simp only [ht, Bool.false_eq_true, if_false] at h ⊢
            cases hd : faults.deleteDoc with
            | some e => rfl
            | none => simp [hd] at h

/-- When the deletion of the blob fails, `deleteDocument` is rejected, changes nothing and
does not issue the delete of the metadata record. -/
theorem deleteDocument_blob_failure (b : Backend) (faults : Faults) (id uid : String)
    (r : StoredDoc) (hu : b.currentUser = some uid) (hg : faults.getDoc = none)
    (hf : b.documents.find? (fun d => d.id == id) = some r) (ho : r.ownerId = uid)
    (ht : truthy r.url = true) (hfail : faults.deleteObject ≠ none ∨ r.url ∉ b.blobs) :
    (∃ err, (deleteDocument b faults id).result = Except.error err) ∧
      (deleteDocument b faults id).backend = b ∧
      StoreOp.deleteDoc id ∉ (deleteDocument b faults id).ops := by
  have hne : (r.ownerId != uid) = false := by simp [ho]
  have hfile : ∃ err, deleteFile b faults r.url =
      { result := Except.error err, backend := b, ops := [StoreOp.deleteObject r.url] } := by
    unfold deleteFile deleteObject
    cases hfo : faults.deleteObject with
    | some e => exact ⟨e, by simp [hu]⟩
    | none =>
      rcases hfail with h | h
      · exact absurd hfo h
      · exact ⟨{ message := some "storage/object-not-found" }, by simp [hu, h]⟩
  obtain ⟨err, hfile⟩ := hfile
  have hrun : deleteDocument b faults id =
      { result := Except.error err, backend := b,
        ops := [StoreOp.getDoc id, StoreOp.deleteObject r.url] } := by
    unfold deleteDocument
    simp only [hu, hg, hf, hne, Bool.false_eq_true, if_false]
    unfold deleteOwned
    simp only [ht, if_true, hfile]
  rw [hrun]
  exact ⟨⟨err, rfl⟩, rfl, by simp⟩

/-- Claim C22. The function `deleteDocument` fails and leaves the metadata store unchanged
when there is no user session, when the record does not exist, when the record belongs to
another user, and when the deletion of the blob fails (the call is rejected or the blob is
missing); in the first three cases the blob store is unchanged too, and no delete is issued.
More generally every rejected run leaves the metadata store unchanged. -/
theorem deleteDocument_failures (b : Backend) (faults : Faults) (id : String) :
    (b.currentUser = none →
        (deleteDocument b faults id).result =
            Except.error { message := some "User must be logged in to delete documents" } ∧
          (deleteDocument b faults id).backend = b ∧ (deleteDocument b faults id).ops = []) ∧
      (∀ uid, b.currentUser = some uid → faults.getDoc = none →
        b.documents.find? (fun d => d.id == id) = none →
        (deleteDocument b faults id).result =
            Except.error { message := some "Document not found" } ∧
          (deleteDocument b faults id).backend = b ∧
          (deleteDocument b faults id).ops = [StoreOp.getDoc id]) ∧
      (∀ uid r, b.currentUser = some uid → faults.getDoc = none →
        b.documents.find? (fun d => d.id == id) = some r → r.ownerId ≠ uid →
        (deleteDocument b faults id).result =
            Except.error { message := some "Not authorized to delete this document" } ∧
          (deleteDocument b faults id).backend = b ∧
          (deleteDocument b faults id).ops = [StoreOp.getDoc id]) ∧
      (∀ uid r, b.currentUser = some uid → faults.getDoc = none →
        b.documents.find? (fun d => d.id == id) = some r → r.ownerId = uid →
        truthy r.url = true → (faults.deleteObject ≠ none ∨ r.url ∉ b.blobs) →
        (∃ err, (deleteDocument b faults id).result = Except.error err) ∧
          (deleteDocument b faults id).backend = b ∧
          StoreOp.deleteDoc id ∉ (deleteDocument b faults id).ops) ∧
      (∀ err, (deleteDocument b faults id).result = Except.error err →
        (deleteDocument b faults id).backend.documents = b.documents) := by
  refine ⟨?_, ?_, ?_, ?_, fun err h => deleteDocument_error_documents b faults id err h⟩
  · intro hu
    simp [deleteDocument, hu]
  · intro uid hu hg hf
    simp [deleteDocument, hu, hg, hf]
  · intro uid r hu hg hf ho
    have hne : (r.ownerId != uid) = true := by simpa using ho
    simp [deleteDocument, hu, hg, hf, hne]
  · intro uid r hu hg hf ho ht hfail
    exact deleteDocument_blob_failure b faults id uid r hu hg hf ho ht hfail

/-- The viewer's delete of an owned record whose blob and metadata exist, on a backend that
serves every call: the viewer deletes the blob itself, `deleteDocument` then fails on the
missing blob, so the metadata record stays and `onDelete` is not called. -/
theorem viewerDelete_blob_only (b : Backend) (uid : String) (r : StoredDoc)
    (document : Document) (hasOnDelete loading : Bool)
    (huser : b.currentUser = some uid)
    (hfound : b.documents.find? (fun d => d.id == document.id) = some r)
    (howner : r.ownerId = uid) (hsame : r.url = document.url)
    (hurl : truthy document.url = true) (hblob : document.url ∈ b.blobs) :
    (viewerDelete b Faults.none true document hasOnDelete loading).1.onDeleteCalls = [] ∧
      (viewerDelete b Faults.none true document hasOnDelete loading).1.alerted = true ∧
      (viewerDelete b Faults.none true document hasOnDelete loading).2.documents =
        b.documents ∧
      document.url ∉ (viewerDelete b Faults.none true document hasOnDelete loading).2.blobs := by
  have hfile := deleteFile_existing b Faults.none uid document.url huser rfl hblob
  have hgone : document.url ∉ b.blobs.filter (fun u => u != document.url) := by
    simp [List.mem_filter]
  have hfails := deleteDocument_blob_failure
    { b with blobs := b.blobs.filter (fun u => u != document.url) } Faults.none
    document.id uid r huser rfl hfound howner (by rw [hsame]; exact hurl)
    (Or.inr (by rw [hsame]; exact hgone))
  obtain ⟨⟨err, herr⟩, hback, _⟩ := hfails
  unfold viewerDelete
  simp only [if_true, hfile, herr, hback, handleDeleteClick]
  exact ⟨trivial, trivial, trivial, hgone⟩

/-- Claim C23 does not hold of the code.  On the example backend, where deleting an existing
object succeeds and deleting a missing object fails, the signed-in user "u" deletes
through the viewer the record 2, whose blob "b2" and metadata both exist: the blob is removed,
`deleteDocument` is rejected because it deletes the same blob again, the metadata record is
still there, `onDelete` is not called and the failure alert is shown.  The card's flow, which
calls `deleteDocument` alone, removes both and reports the deletion. -/
theorem viewerDelete_leaves_metadata :
    (viewerDelete exampleBackend Faults.none true doc2b true false).2.blobs = ["b1", "b9"] ∧
      (viewerDelete exampleBackend Faults.none true doc2b true false).2.documents =
        exampleStore ∧
      (viewerDelete exampleBackend Faults.none true doc2b true false).1.onDeleteCalls = [] ∧
      (viewerDelete exampleBackend Faults.none true doc2b true false).1.alerted = true ∧
      (viewerDelete exampleBackend Faults.none true doc2b true false).1.remoteCalls =
        [RemoteCall.deleteFile "b2", RemoteCall.deleteDocument "2"] ∧
      (cardDelete exampleBackend Faults.none doc2b true
          { menuOpen := false, deleteDialogOpen := true, deleting := false }).1.2 = ["2"] ∧
      (cardDelete exampleBackend Faults.none doc2b true
          { menuOpen := false, deleteDialogOpen := true, deleting := false }).2.blobs =
        ["b1", "b9"] ∧
      (cardDelete exampleBackend Faults.none doc2b true
          { menuOpen := false, deleteDialogOpen := true, deleting := false }).2.documents.map
          StoredDoc.id = ["1", "9"] := by
  decide

/-! ## The display list is the projection (claim C24) -/

/-- A failed load touches neither the lists nor the search text nor the sort key. -/
theorem loadDocuments_error_frame (err : JsError) (st : ListState) :
    (loadDocuments (Except.error err) st).documents = st.documents ∧
      (loadDocuments (Except.error err) st).filteredDocuments = st.filteredDocuments ∧
      (loadDocuments (Except.error err) st).searchQuery = st.searchQuery ∧
      (loadDocuments (Except.error err) st).sortBy = st.sortBy := by
  have hcatch : ∀ s : ListState,
      (loadDocumentsCatch err s).documents = s.documents ∧
        (loadDocumentsCatch err s).filteredDocuments = s.filteredDocuments ∧
        (loadDocumentsCatch err s).searchQuery = s.searchQuery ∧
        (loadDocumentsCatch err s).sortBy = s.sortBy := by
    intro s
    unfold loadDocumentsCatch
    split
    · exact ⟨rfl, rfl, rfl, rfl⟩
    · split
      · split
        · split
          · exact ⟨rfl, rfl, rfl, rfl⟩
          · exact ⟨rfl, rfl, rfl, rfl⟩
        · exact ⟨rfl, rfl, rfl, rfl⟩
      · exact ⟨rfl, rfl, rfl, rfl⟩
  exact hcatch { st with loading := true, error := "", indexRequired := false }

/-- An event that has settled leaves the display list equal to the projection. -/
theorem settle_projection (toLowerCase : String → String) (st : ListState) (a : ListAction)
    (hinv : st.filteredDocuments = project toLowerCase st.documents st.searchQuery st.sortBy) :
    (settle toLowerCase st a).filteredDocuments =
      project toLowerCase (settle toLowerCase st a).documents
        (settle toLowerCase st a).searchQuery (settle toLowerCase st a).sortBy := by
  unfold settle
  by_cases hc : a.changesDeps st = true
  · rw [if_pos hc]
    rfl
  · rw [if_neg hc]
    cases a with
    | loadSettled outcome =>
      cases outcome with
      | ok docs => exact absurd rfl hc
      | error err =>
        have h := loadDocuments_error_frame err st
        simp only [ListAction.apply]
        rw [h.1, h.2.1, h.2.2.1, h.2.2.2]
        exact hinv
    | documentDeleted d => exact absurd rfl hc
    | searchChanged value =>
      have hv : value = st.searchQuery := by
        simpa [ListAction.changesDeps] using hc
      simp only [ListAction.apply, handleSearchChange, hv]
      exact hinv
    | sortChanged value =>
      have hv : value = st.sortBy := by
        simpa [ListAction.changesDeps] using hc
      simp only [ListAction.apply, handleSortChange, hv]
      exact hinv

/-- Claim C24. The display list is always the projection of the current state: once the mount
has settled, and after every sequence of settled events (a load that succeeded or failed, a
local delete, a change of the search text, a change of the sort key), `filteredDocuments` is
`project documents searchQuery sortBy` for the current values of the three; initially the
search text is empty and the sort key is `createdAt`. -/
theorem display_is_projection (toLowerCase : String → String) (actions : List ListAction) :
    (actions.foldl (settle toLowerCase) (mounted toLowerCase)).filteredDocuments =
        project toLowerCase (actions.foldl (settle toLowerCase) (mounted toLowerCase)).documents
          (actions.foldl (settle toLowerCase) (mounted toLowerCase)).searchQuery
          (actions.foldl (settle toLowerCase) (mounted toLowerCase)).sortBy ∧
      (mounted toLowerCase).searchQuery = "" ∧
      (mounted toLowerCase).sortBy = SortKey.createdAt := by
  refine ⟨?_, rfl, rfl⟩
  have hgen : ∀ (st : ListState),
      st.filteredDocuments = project toLowerCase st.documents st.searchQuery st.sortBy →
      (actions.foldl (settle toLowerCase) st).filteredDocuments =
        project toLowerCase (actions.foldl (settle toLowerCase) st).documents
          (actions.foldl (settle toLowerCase) st).searchQuery
          (actions.foldl (settle toLowerCase) st).sortBy := by
    induction actions with
    | nil => intro st h; exact h
    | cons a rest ih =>
      intro st h
      exact ih (settle toLowerCase st a) (settle_projection toLowerCase st a h)
  exact hgen (mounted toLowerCase) rfl

/-- Claim C24 on a run: the scenario list is loaded, the search text becomes "report", the
sort key becomes `size`, the record 2 is deleted; the display list is `[record 1]`. -/
theorem display_is_projection_witness :
    ([ListAction.loadSettled (Except.ok scenarioList), ListAction.searchChanged "report",
        ListAction.sortChanged SortKey.size, ListAction.documentDeleted "2"].foldl
      (settle asciiLower) (mounted asciiLower)).filteredDocuments = [doc1] := by
  have h := (display_is_projection asciiLower
    [ListAction.loadSettled (Except.ok scenarioList), ListAction.searchChanged "report",
      ListAction.sortChanged SortKey.size, ListAction.documentDeleted "2"]).1
  rw [h]
  decide

/-! ## The storage statistics (claims C25 and C29) -/

/-- The reduce that adds the sizes is the sum of the sizes, shifted by its start value. -/
theorem foldl_sizes (documents : List StatsDoc) (start : Nat) :
    documents.foldl (fun sum doc => sum + sizeOrZero doc.size) start =
      start + (documents.map (fun doc => doc.size.getD 0)).sum := by
  induction documents generalizing start with
  | nil => simp
  | cons d rest ih =>
    have hd : sizeOrZero d.size = d.size.getD 0 := by
      cases h : d.size with
      | none => rfl
      | some n =>
        by_cases hn : n = 0
        · simp [sizeOrZero, hn]
        · simp [sizeOrZero, hn]
    rw [List.foldl_cons, ih, hd, List.map_cons, List.sum_cons, Nat.add_assoc]

/-- Claim C25. The statistics are a reduce over the fetched list: for every signed-in user and
every list of documents `getDocuments` returns, `used` is the exact sum of the sizes of the
documents, a missing size counting as 0, and `files` is the number of documents; with no user
session `used` and `files` are 0, whatever the store would return.  Sizes are natural
numbers. -/
theorem getUserStorageStats_totals (uid : String) (documents : List StatsDoc)
    (outcome : Except JsError (List StatsDoc)) :
    (getUserStorageStats (some uid) (Except.ok documents)).used =
        (documents.map (fun doc => doc.size.getD 0)).sum ∧
      (getUserStorageStats (some uid) (Except.ok documents)).files = documents.length ∧
      (getUserStorageStats none outcome).used = 0 ∧
      (getUserStorageStats none outcome).files = 0 := by
  refine ⟨?_, rfl, rfl, rfl⟩
  simp only [getUserStorageStats]
  rw [foldl_sizes, Nat.zero_add]

/-- Claim C29 does not hold of the code: the XLSX and the PPTX MIME types both contain the
text "document" (in "officedocument"), so the test of line 52 answers "Documents" before the
tests for "spreadsheet" and "presentation" are reached, and the breakdown counts such files
under "Documents". -/
theorem getDocumentCategory_office_types :
    getDocumentCategory xlsxType = "Documents" ∧
      getDocumentCategory pptxType = "Documents" ∧
      getDocumentCategory xlsxType ≠ "Spreadsheets" ∧
      getDocumentCategory pptxType ≠ "Presentations" ∧
      (getUserStorageStats (some "u")
          (Except.ok [{ size := some 10, type := xlsxType },
            { size := some 20, type := pptxType }])).breakdown =
        some [("Documents", 2)] := by
  decide

/-! ## The index classification (claim C26) -/

/-- The pattern matches at the start of a text exactly when the console origin followed by a
character outside the white space class stands there, and then it captures the origin
extended to the next white space. -/
theorem matchHere_eq (cs : List Char) :
    (matchHere cs = none ∧ ¬ UrlAt cs 0) ∨ (matchHere cs = some (urlFrom cs 0) ∧ UrlAt cs 0) := by
  unfold matchHere
  by_cases hp : consoleOrigin.isPrefixOf cs = true
  · rw [if_pos hp]
    obtain ⟨t, ht⟩ := List.isPrefixOf_iff_prefix.1 hp
    subst ht
    have hdrop : (consoleOrigin ++ t).drop consoleOrigin.length = t := List.drop_left _ _
    simp only [hdrop]
    cases t with
    | nil =>
      left
      refine ⟨by simp, ?_⟩
      rintro ⟨c, rest, h, _⟩
      have := congrArg List.length h
      simp at this
    | cons c rest =>
      by_cases hc : isWhiteSpace c = true
      · left
        refine ⟨by simp [hc], ?_⟩
        rintro ⟨c', rest', h, hc'⟩
        rw [List.drop_zero] at h
        have := List.append_cancel_left h
        injection this with h1 _
        rw [h1] at hc
        rw [hc] at hc'
        exact Bool.noConfusion hc'
      · right
        have hc' : isWhiteSpace c = false := by simpa using hc
        refine ⟨?_, c, rest, by simp, hc'⟩
        simp [hc', urlFrom, hdrop]
  · rw [if_neg hp]
    left
    refine ⟨rfl, ?_⟩
    rintro ⟨c, rest, h, _⟩
    apply hp
    rw [List.isPrefixOf_iff_prefix]
    rw [List.drop_zero] at h
    exact ⟨c :: rest, h.symm⟩

/-- Offsets in the tail of a text are the offsets of the text shifted by one. -/
theorem urlAt_succ (c : Char) (cs : List Char) (i : Nat) : UrlAt (c :: cs) (i + 1) ↔ UrlAt cs i := by
  simp [UrlAt]

/-- The extension at an offset of the tail is the extension at the shifted offset. -/
theorem urlFrom_succ (c : Char) (cs : List Char) (i : Nat) :
    urlFrom (c :: cs) (i + 1) = urlFrom cs i := by
  simp [urlFrom, Nat.add_right_comm i 1 consoleOrigin.length]

/-- The search fails exactly when the console origin followed by a character outside the
white space class stands nowhere; otherwise it returns the first such occurrence, extended to
the next white space. -/
theorem matchFrom_eq (cs : List Char) :
    (matchFrom cs = none ∧ ∀ i, ¬ UrlAt cs i) ∨
      (∃ i, UrlAt cs i ∧ (∀ j, j < i → ¬ UrlAt cs j) ∧ matchFrom cs = some (urlFrom cs i)) := by
  induction cs with
  | nil =>
    left
    refine ⟨rfl, ?_⟩
    rintro i ⟨c, rest, h, _⟩
    have := congrArg List.length h
    simp [consoleOrigin] at this
  | cons c cs ih =>
    rcases matchHere_eq (c :: cs) with ⟨hnone, hno⟩ | ⟨hsome, hyes⟩
    · rcases ih with ⟨hn, hall⟩ | ⟨i, hi, hmin, hm⟩
      · left
        refine ⟨by rw [matchFrom, hnone]; exact hn, ?_⟩
        intro i
        cases i with
        | zero => exact hno
        | succ k => rw [urlAt_succ]; exact hall k
      · right
        refine ⟨i + 1, (urlAt_succ c cs i).2 hi, ?_, ?_⟩
        · intro j hj
          cases j with
          | zero => exact hno
          | succ k =>
            rw [urlAt_succ]
            exact hmin k (Nat.lt_of_succ_lt_succ hj)
        · rw [matchFrom, hnone, urlFrom_succ]
          exact hm
    · right
      refine ⟨0, hyes, fun j hj => absurd hj (Nat.not_lt_zero j), ?_⟩
      rw [matchFrom, hsome]

/-- The two ways a failed load is recorded: either the message contains "requires an index"
and a first console URL, and the index-required kind is recorded with that URL; or there is no
such message, and the generic kind is recorded. -/
theorem loadDocuments_error_spec (st : ListState) (err : JsError) :
    (∃ message i, err.message = some message ∧
        includes message "requires an index" = true ∧ UrlAt message.toList i ∧
        (∀ j, j < i → ¬ UrlAt message.toList j) ∧
        (loadDocuments (Except.error err) st).indexRequired = true ∧
        (loadDocuments (Except.error err) st).indexUrl =
          String.mk (urlFrom message.toList i) ∧
        (loadDocuments (Except.error err) st).error = indexErrorMessage) ∨
      ((∀ message, err.message = some message →
          includes message "requires an index" = true → ∀ i, ¬ UrlAt message.toList i) ∧
        (loadDocuments (Except.error err) st).indexRequired = false ∧
        (loadDocuments (Except.error err) st).error =
          "Failed to load documents: " ++ templateValue err.message) := by
  cases hm : err.message with
  | none =>
    right
    refine ⟨fun message h => Option.noConfusion h, ?_⟩
    simp [loadDocuments, loadDocumentsCatch, failedToLoad, hm]
  | some message =>
    by_cases hincl : includes message "requires an index" = true
    · have htruthy : truthy message = true := by
        unfold truthy
        cases hl : message.toList with
        | nil =>
          unfold includes at hincl
          rw [hl] at hincl
          exact absurd hincl (by decide)
        | cons c cs => rfl
      rcases matchFrom_eq message.toList with ⟨hnone, hall⟩ | ⟨i, hi, hmin, hsome⟩
      · right
        have hu : urlMatch message = none := by
          unfold urlMatch
          rw [hnone]
          rfl
        refine ⟨?_, ?_⟩
        · intro m h _
          injection h with h
          rw [← h]
          exact hall
        · simp [loadDocuments, loadDocumentsCatch, failedToLoad, hm, htruthy, hincl, hu]
      · left
        have hu : urlMatch message = some (String.mk (urlFrom message.toList i)) := by
          unfold urlMatch
          rw [hsome]
          rfl
        have htu : truthy (String.mk (urlFrom message.toList i)) = true := rfl
        refine ⟨message, i, rfl, hincl, hi, hmin, ?_⟩
        simp only [loadDocuments, loadDocumentsCatch, hm, htruthy, hincl, hu, htu,
          Bool.and_self, if_true]
        exact ⟨trivial, trivial, trivial⟩
    · right
      refine ⟨?_, ?_⟩
      · intro m h hinc
        injection h with h
        rw [← h] at hinc
        exact absurd hinc hincl
      · simp [loadDocuments, loadDocumentsCatch, failedToLoad, hm, hincl]

/-- Claim C26. Index-required classification: a load failure is recorded as index-required
if and only if its message contains the text "requires an index" and contains the console
origin `https://console.firebase.google.com` followed by at least one character that is not
white space; then `indexUrl` is the first such occurrence extended to the next white space or
to the end of the message, and the error is the message of line 103; in every other case
`indexRequired` is false and the error is "Failed to load documents: " followed by the
message. -/
theorem index_classification (st : ListState) (err : JsError) :
    ((loadDocuments (Except.error err) st).indexRequired = true ↔
        ∃ message, err.message = some message ∧
          "requires an index".toList <:+: message.toList ∧ ∃ i, UrlAt message.toList i) ∧
      (∀ message i, err.message = some message →
        "requires an index".toList <:+: message.toList → UrlAt message.toList i →
        (∀ j, j < i → ¬ UrlAt message.toList j) →
        (loadDocuments (Except.error err) st).indexUrl =
            String.mk (urlFrom message.toList i) ∧
          (loadDocuments (Except.error err) st).error = indexErrorMessage) ∧
      ((loadDocuments (Except.error err) st).indexRequired = false →
        (loadDocuments (Except.error err) st).error =
          "Failed to load documents: " ++ templateValue err.message) := by
  rcases loadDocuments_error_spec st err with
    ⟨message, i, hm, hincl, hi, hmin, hreq, hurl, herr⟩ | ⟨hno, hreq, herr⟩
  · refine ⟨?_, ?_, ?_⟩
    · constructor
      · intro _
        exact ⟨message, hm, (includesList_iff _ _).1 hincl, i, hi⟩
      · intro _
        exact hreq
    · intro m k hmk _ hk hkmin
      rw [hm] at hmk
      injection hmk with hmk
      subst hmk
      have hik : i = k := by
        rcases Nat.lt_trichotomy i k with h | h | h
        · exact absurd hi (hkmin i h)
        · exact h
        · exact absurd hk (hmin k h)
      rw [← hik]
      exact ⟨hurl, herr⟩
    · intro hfalse
      rw [hreq] at hfalse
      exact Bool.noConfusion hfalse
  · refine ⟨?_, ?_, fun _ => herr⟩
    · constructor
      · intro h
        rw [hreq] at h
        exact Bool.noConfusion h
      · rintro ⟨m, hm, hinf, i, hi⟩
        exact absurd hi (hno m hm ((includesList_iff _ _).2 hinf) i)
    · intro m k hmk hinf hk _
      exact absurd hk (hno m hmk ((includesList_iff _ _).2 hinf) k)

/-! ## The filters of `getDocuments` (claim C27) -/

/-- Claim C27 does not hold of the code: with both a search term and a file type set,
`getDocuments` returns from the search filter (line 72) and never applies the file type
filter.  On the example store the user "u" asks for the search term "report" and the file
type "image" and gets the record "Report.pdf", whose type `application/pdf` does not contain
"image". -/
theorem getDocuments_skips_fileType :
    getDocuments asciiLower (some "u") exampleStore none reportImageFilters =
        Except.ok [doc1b] ∧
      includes doc1b.type "image" = false ∧
      filterCallback asciiLower (asciiLower "report") doc1b = true := by
  refine ⟨rfl, by decide, by decide⟩

/-! ## Validation of a file (claim C28) -/

/-- The supported types are the allowed types of the constants. -/
theorem supportedTypes_eq : supportedTypes = ALLOWED_FILE_TYPES := rfl

/-- Claim C28. The function `validateFile` returns the empty list of errors if and only if a
file is given, its size is at most `maxSize` and `isSupportedFileType` holds of its type,
which is the case exactly when the type is one of the 15 `ALLOWED_FILE_TYPES` or starts with
"image/"; with no file it returns exactly `["No file selected"]`; and when both checks fail it
returns the size error followed by the type error. -/
theorem validateFile_spec (formatFileSize : Nat → String) (file : Option File)
    (maxSize : Nat) :
    (validateFile formatFileSize file maxSize = [] ↔
        ∃ f, file = some f ∧ f.size ≤ maxSize ∧ isSupportedFileType f.type = true) ∧
      (∀ mimeType, isSupportedFileType mimeType = true ↔
        mimeType ∈ ALLOWED_FILE_TYPES ∨ "image/".toList <+: mimeType.toList) ∧
      ALLOWED_FILE_TYPES.length = 15 ∧
      validateFile formatFileSize none maxSize = ["No file selected"] ∧
      (∀ f, maxSize < f.size → isSupportedFileType f.type = false →
        validateFile formatFileSize (some f) maxSize =
          ["File size exceeds " ++ formatFileSize maxSize, "File type not supported"]) := by
  refine ⟨?_, ?_, rfl, rfl, ?_⟩
  · cases file with
    | none => simp [validateFile]
    | some f =>
      by_cases hs : f.size > maxSize <;> by_cases ht : isSupportedFileType f.type = true
      · simp [validateFile, hs, ht]
      · simp [validateFile, hs, ht]
      · simp [validateFile, hs, ht]
        omega
      · simp [validateFile, hs, ht]
  · intro mimeType
    unfold isSupportedFileType startsWith
    rw [Bool.or_eq_true, List.isPrefixOf_iff_prefix, supportedTypes_eq]
    simp
  · intro f hs ht
    simp [validateFile, hs, ht]

/-! ## File names (claim C30) -/

/-- Claim C30 does not hold of the code: in the class `[^a-zA-Z0-9.-_]` the characters `.-_`
are read as the range from `.` to `_`, which holds `/` and does not hold `-`.  For the name
"my-file/name.txt" the hyphen is replaced and the slash is kept. -/
theorem sanitizeFileName_range :
    sanitizeFileName "my-file/name.txt" = "my_file/name.txt" ∧
      '/' ∈ (sanitizeFileName "my-file/name.txt").toList ∧
      '-' ∉ (sanitizeFileName "my-file/name.txt").toList ∧
      inSanitizeClass '/' = true ∧ inSanitizeClass '-' = false := by
  decide

end Docucloud
